import Mathlib

/-!
Verification of the CycloneTCP NIC driver shim (descriptor-ring DMA packet
transfer engine) against its natural-language specification.

The development shallowly embeds the two driver source files

  * `src/drivers/mac/mimxrt1160_eth2_driver.c`  (NXP ENET peripheral)
  * `src/drivers/mac/samv71_eth_driver.c`       (Microchip GMAC peripheral)

Descriptors are modelled as records whose fields correspond one to one to
the bit fields of the 32-bit descriptor words manipulated by the C code
(`ENET_TBD0_R`, `GMAC_TX_USED`, ...).  The per-chip register bit layouts
live in headers that are not part of the sources under verification; the
spec declares them out of scope ("register bit-layouts specific to a given
silicon family ... never change the ring-engine's contract"), so a flag bit
becomes a `Bool` field and a length bit field becomes a `Nat` field.
Ring capacities and buffer sizes are configuration macros from those same
headers and are kept as explicit parameters.  Byte buffers are `List Nat`,
descriptor arrays are functions `Nat → Desc` indexed exactly as the C
arrays are, and peripheral side effects (transmit start, receive poll,
the `nicTxEvent` signal) are boolean fields of the state.
-/

namespace CycloneTCP

/-- Error codes returned by the driver entry points (from `error.h`, the
subset used by these two drivers).  `ERROR_FAILURE` is the code the send
path returns when the descriptor at the transmit cursor is still owned by
the DMA engine, i.e. the specification's `Busy`; `ERROR_BUFFER_EMPTY` is
the specification's `Empty` sentinel. -/
inductive error_t where
  | NO_ERROR
  | ERROR_INVALID_LENGTH
  | ERROR_FAILURE
  | ERROR_BUFFER_EMPTY
  | ERROR_INVALID_PACKET
deriving DecidableEq, Repr

/-- Rounding of a byte count to the containing multiple of 4, the
translation of the C expression `(n + 3) & ~3UL` used by both drivers
when copying frame data (`osMemcpy(dst, src, (length + 3) & ~3UL)`). -/
def align4 (n : Nat) : Nat := (n + 3) - (n + 3) % 4

/-- Modelled from the spec: the 16-bit data-length field of an ENET
descriptor word 0 (`ENET_TBD0_DATA_LENGTH` / `ENET_RBD0_DATA_LENGTH`).
The constant lives in `mimxrt1160_eth2_driver.h`, which is not among the
sources; the ENET descriptor length field is the low half-word. -/
def ENET_TBD0_DATA_LENGTH : Nat := 0xFFFF

/-- Modelled from the spec: receive-side length mask, see
`ENET_TBD0_DATA_LENGTH`. -/
def ENET_RBD0_DATA_LENGTH : Nat := 0xFFFF

/-- One ENET transmit buffer descriptor (`txBufferDesc[i][0..7]` in
`mimxrt1160_eth2_driver.c`).  Word 0 holds the flags `R` (ready: the DMA
engine owns the descriptor), `W` (wrap), `L` (last buffer in frame),
`TC` (transmit CRC) and the data length; word 1 holds the buffer address
(modelled as the buffer index); word 2 holds the interrupt-enable flag
`ENET_TBD2_INT`; word 4 holds the `BDU` flag. -/
structure EnetTxDesc where
  r : Bool
  w : Bool
  l : Bool
  tc : Bool
  dataLength : Nat
  addr : Nat
  intFlag : Bool
  bdu : Bool
deriving DecidableEq, Repr

/-- One ENET receive buffer descriptor (`rxBufferDesc[i][0..7]`).
Word 0 holds `E` (empty: the DMA engine owns the descriptor), `W` (wrap),
`L` (last buffer in frame), the error flags `LG` (oversize), `NO`
(non-octet aligned), `CR` (CRC error), `OV` (overrun), `TR` (truncated)
and the data length; word 1 the buffer address; word 2 the
interrupt-enable flag; word 4 the `BDU` flag. -/
structure EnetRxDesc where
  e : Bool
  w : Bool
  l : Bool
  lg : Bool
  no : Bool
  cr : Bool
  ov : Bool
  tr : Bool
  dataLength : Nat
  addr : Nat
  intFlag : Bool
  bdu : Bool
deriving DecidableEq, Repr

/-- Driver-visible state of the i.MX RT1160 ENET engine: the static
descriptor arrays, data buffers, ring cursors and the static scratch
buffers `temp` of `mimxrt1160Eth2SendPacket` / `mimxrt1160Eth2ReceivePacket`,
plus the externally observable peripheral side effects: `nicTxEvent`
(`osSetEvent(&interface->nicTxEvent)`), `tdar` (`ENET_1G->TDAR` transmit
poll request) and `rdar` (`ENET_1G->RDAR` receive poll request). -/
structure EnetState where
  txDesc : Nat → EnetTxDesc
  rxDesc : Nat → EnetRxDesc
  txBuffer : Nat → List Nat
  rxBuffer : Nat → List Nat
  txBufferIndex : Nat
  rxBufferIndex : Nat
  tempTx : List Nat
  tempRx : List Nat
  nicTxEvent : Bool
  tdar : Bool
  rdar : Bool

/-- Descriptor produced for index `i` by the TX loop of
`mimxrt1160Eth2InitBufferDesc`: the array is cleared by `osMemset`, then
word 1 receives the buffer address and word 2 the interrupt flag. -/
def mimxrt1160Eth2TxDescCleared (i : Nat) : EnetTxDesc :=
  { r := false
    w := false
    l := false
    tc := false
    dataLength := 0
    addr := i
    intFlag := true
    bdu := false }

/-- Descriptor produced for index `i` by the RX loop of
`mimxrt1160Eth2InitBufferDesc`: cleared, then word 0 set to `ENET_RBD0_E`
(owned by the DMA), word 1 to the buffer address, word 2 to the
interrupt flag. -/
def mimxrt1160Eth2RxDescCleared (i : Nat) : EnetRxDesc :=
  { e := true
    w := false
    l := false
    lg := false
    no := false
    cr := false
    ov := false
    tr := false
    dataLength := 0
    addr := i
    intFlag := true
    bdu := false }

/-- Embedding of `mimxrt1160Eth2InitBufferDesc`: every transmit and
receive descriptor is rebuilt, the last entry of each ring receives the
wrap flag (`txBufferDesc[i - 1][0] |= ENET_TBD0_W` after the loop, where
`i` equals the ring capacity), and both cursors are reset to 0. -/
def mimxrt1160Eth2InitBufferDesc (txBufferCount rxBufferCount : Nat)
    (s : EnetState) : EnetState :=
  let txD : Nat → EnetTxDesc := fun i => mimxrt1160Eth2TxDescCleared i
  let txD := Function.update txD (txBufferCount - 1)
    { mimxrt1160Eth2TxDescCleared (txBufferCount - 1) with w := true }
  let rxD : Nat → EnetRxDesc := fun i => mimxrt1160Eth2RxDescCleared i
  let rxD := Function.update rxD (rxBufferCount - 1)
    { mimxrt1160Eth2RxDescCleared (rxBufferCount - 1) with w := true }
  { s with txDesc := txD, rxDesc := rxD, txBufferIndex := 0, rxBufferIndex := 0 }

/-- Embedding of `mimxrt1160Eth2SendPacket`.  `txBufferCount` and
`txBufferSize` stand for the configuration macros
`MIMXRT1160_ETH2_TX_BUFFER_COUNT` / `MIMXRT1160_ETH2_TX_BUFFER_SIZE`;
`packet` is the byte sequence described by `(buffer, offset)`, so
`packet.length` is `netBufferGetLength(buffer) - offset`.  The returned
pair is the C return code together with the updated state. -/
def mimxrt1160Eth2SendPacket (txBufferCount txBufferSize : Nat)
    (packet : List Nat) (s : EnetState) : error_t × EnetState :=
  let length := packet.length
  if length > txBufferSize then
    (error_t.ERROR_INVALID_LENGTH, { s with nicTxEvent := true })
  else if (s.txDesc s.txBufferIndex).r then
    (error_t.ERROR_FAILURE, s)
  else
    let temp := packet ++ s.tempTx.drop length
    let buf := temp.take (align4 length) ++
      (s.txBuffer s.txBufferIndex).drop (align4 length)
    let txBuffer := Function.update s.txBuffer s.txBufferIndex buf
    let d := { s.txDesc s.txBufferIndex with bdu := false }
    if s.txBufferIndex < txBufferCount - 1 then
      let txDesc := Function.update s.txDesc s.txBufferIndex
        { d with
          r := true
          w := false
          l := true
          tc := true
          dataLength := length &&& ENET_TBD0_DATA_LENGTH }
      let s1 := { s with
        txBuffer := txBuffer
        txDesc := txDesc
        txBufferIndex := s.txBufferIndex + 1
        tempTx := temp
        tdar := true }
      if (s1.txDesc s1.txBufferIndex).r = false then
        (error_t.NO_ERROR, { s1 with nicTxEvent := true })
      else
        (error_t.NO_ERROR, s1)
    else
      let txDesc := Function.update s.txDesc s.txBufferIndex
        { d with
          r := true
          w := true
          l := true
          tc := true
          dataLength := length &&& ENET_TBD0_DATA_LENGTH }
      let s1 := { s with
        txBuffer := txBuffer
        txDesc := txDesc
        txBufferIndex := 0
        tempTx := temp
        tdar := true }
      if (s1.txDesc s1.txBufferIndex).r = false then
        (error_t.NO_ERROR, { s1 with nicTxEvent := true })
      else
        (error_t.NO_ERROR, s1)

/-- Embedding of `mimxrt1160Eth2ReceivePacket`.  The middle component of
the result is the frame handed to `nicProcessPacket(interface, temp, n)`,
i.e. the first `n` bytes of the scratch buffer, or `none` when no frame
is delivered. -/
def mimxrt1160Eth2ReceivePacket (rxBufferCount rxBufferSize : Nat)
    (s : EnetState) : error_t × Option (List Nat) × EnetState :=
  let d := s.rxDesc s.rxBufferIndex
  if d.e = false then
    let step :
        error_t × Option (List Nat) × List Nat :=
      if d.l then
        if d.lg || d.no || d.cr || d.ov || d.tr then
          (error_t.ERROR_INVALID_PACKET, none, s.tempRx)
        else
          let n := d.dataLength &&& ENET_RBD0_DATA_LENGTH
          let n := min n rxBufferSize
          let temp := (s.rxBuffer s.rxBufferIndex).take (align4 n) ++
            s.tempRx.drop (align4 n)
          (error_t.NO_ERROR, some (temp.take n), temp)
      else
        (error_t.ERROR_INVALID_PACKET, none, s.tempRx)
    let d1 := { d with bdu := false }
    if s.rxBufferIndex < rxBufferCount - 1 then
      let rxDesc := Function.update s.rxDesc s.rxBufferIndex
        { d1 with
          e := true
          w := false
          l := false
          lg := false
          no := false
          cr := false
          ov := false
          tr := false
          dataLength := 0 }
      (step.1, step.2.1, { s with
        rxDesc := rxDesc
        rxBufferIndex := s.rxBufferIndex + 1
        tempRx := step.2.2
        rdar := true })
    else
      let rxDesc := Function.update s.rxDesc s.rxBufferIndex
        { d1 with
          e := true
          w := true
          l := false
          lg := false
          no := false
          cr := false
          ov := false
          tr := false
          dataLength := 0 }
      (step.1, step.2.1, { s with
        rxDesc := rxDesc
        rxBufferIndex := 0
        tempRx := step.2.2
        rdar := true })
  else
    (error_t.ERROR_BUFFER_EMPTY, none, s)

/-- Embedding of the drain loop of `mimxrt1160Eth2EventHandler`
(`do { error = mimxrt1160Eth2ReceivePacket(interface); } while (error !=
ERROR_BUFFER_EMPTY)`), cut off by an explicit fuel.  The boolean result
records whether the loop exited because `ERROR_BUFFER_EMPTY` was
returned (rather than because the fuel ran out). -/
def mimxrt1160Eth2DrainLoop (rxBufferCount rxBufferSize : Nat) :
    Nat → EnetState → EnetState × Bool
  | 0, s => (s, false)
  | fuel + 1, s =>
    let r := mimxrt1160Eth2ReceivePacket rxBufferCount rxBufferSize s
    if r.1 = error_t.ERROR_BUFFER_EMPTY then
      (r.2.2, true)
    else
      mimxrt1160Eth2DrainLoop rxBufferCount rxBufferSize fuel r.2.2

/-- Number of receive descriptors the DMA engine has handed back to
software (`E` bit clear) among the first `rxBufferCount` ring slots. -/
def enetHwReleasedCount (rxBufferCount : Nat) (s : EnetState) : Nat :=
  ((Finset.range rxBufferCount).filter (fun i => (s.rxDesc i).e = false)).card

/-- Modelled from the spec: maximum Ethernet frame size
(`ETH_MAX_FRAME_SIZE` from `core/ethernet.h`, not among the sources):
1518 bytes for an untagged frame including the FCS. -/
def ETH_MAX_FRAME_SIZE : Nat := 1518

/-- Modelled from the spec: length mask of the GMAC transmit descriptor
status word (`GMAC_TX_LENGTH` from `samv71_eth_driver.h`, not among the
sources; the GMAC buffer-length field is 14 bits wide). -/
def GMAC_TX_LENGTH : Nat := 0x3FFF

/-- Modelled from the spec: length mask of the GMAC receive descriptor
status word (`GMAC_RX_LENGTH` from `samv71_eth_driver.h`, not among the
sources; the GMAC frame-length field is 13 bits wide). -/
def GMAC_RX_LENGTH : Nat := 0x1FFF

/-- Value of the C constant `UINT_MAX` (from `limits.h`) on the 32-bit
targets these drivers compile for; used by `samv71EthReceivePacket` as
the sentinel for "no start/end-of-frame index found". -/
def UINT_MAX : Nat := 0xFFFFFFFF

/-- One GMAC transmit buffer descriptor (`Samv71TxBufferDesc`): an
address word and a status word holding `GMAC_TX_USED` (software owns the
descriptor), `GMAC_TX_WRAP`, `GMAC_TX_LAST` and the buffer length. -/
structure GmacTxDesc where
  addr : Nat
  used : Bool
  wrap : Bool
  last : Bool
  length : Nat
deriving DecidableEq, Repr

/-- One GMAC receive buffer descriptor (`Samv71RxBufferDesc`): the
address word holds the buffer address, `GMAC_RX_WRAP` and
`GMAC_RX_OWNERSHIP` (set when the DMA engine has handed the descriptor
to software); the status word holds `GMAC_RX_SOF`, `GMAC_RX_EOF` and
the frame length. -/
structure GmacRxDesc where
  addr : Nat
  own : Bool
  wrap : Bool
  sof : Bool
  eof : Bool
  length : Nat
deriving DecidableEq, Repr

/-- Driver-visible state of the SAMV71 GMAC engine, mirroring
`EnetState`: descriptor arrays, data buffers, ring cursors, the static
scratch buffers of the send and receive paths (`temp`), the
`nicTxEvent` signal and the `GMAC_NCR_TSTART` transmit-start side
effect. -/
structure Samv71State where
  txDesc : Nat → GmacTxDesc
  rxDesc : Nat → GmacRxDesc
  txBuffer : Nat → List Nat
  rxBuffer : Nat → List Nat
  txBufferIndex : Nat
  rxBufferIndex : Nat
  tempTx : List Nat
  tempRx : List Nat
  nicTxEvent : Bool
  tstart : Bool

/-- Embedding of the TX/RX ring part of `samv71EthInitBufferDesc`: each
transmit descriptor receives its buffer address and a status word of
`GMAC_TX_USED`; each receive descriptor receives its buffer address
(ownership bit clear, so the DMA engine owns it) and a cleared status
word; the last descriptor of each ring gets the wrap flag OR-ed in
after the loop; both cursors are reset to 0.  The dummy rings that keep
the unused priority queues quiescent are outside the engine contract
and are not modelled. -/
def samv71EthInitBufferDesc (txBufferCount rxBufferCount : Nat)
    (s : Samv71State) : Samv71State :=
  let txD : Nat → GmacTxDesc := fun i =>
    { addr := i, used := true, wrap := false, last := false, length := 0 }
  let txD := Function.update txD (txBufferCount - 1)
    { txD (txBufferCount - 1) with wrap := true }
  let rxD : Nat → GmacRxDesc := fun i =>
    { addr := i
      own := false
      wrap := false
      sof := false
      eof := false
      length := 0 }
  let rxD := Function.update rxD (rxBufferCount - 1)
    { rxD (rxBufferCount - 1) with wrap := true }
  { s with txDesc := txD, rxDesc := rxD, txBufferIndex := 0, rxBufferIndex := 0 }

/-- Embedding of `samv71EthSendPacket`.  The status-word write
`txBufferDesc[i].status = GMAC_TX_LAST | (length & GMAC_TX_LENGTH)`
(with `GMAC_TX_WRAP` OR-ed in on the wrap slot) clears `GMAC_TX_USED`,
handing the descriptor to the DMA engine. -/
def samv71EthSendPacket (txBufferCount txBufferSize : Nat)
    (packet : List Nat) (s : Samv71State) : error_t × Samv71State :=
  let length := packet.length
  if length > txBufferSize then
    (error_t.ERROR_INVALID_LENGTH, { s with nicTxEvent := true })
  else if (s.txDesc s.txBufferIndex).used = false then
    (error_t.ERROR_FAILURE, s)
  else
    let temp := packet ++ s.tempTx.drop length
    let buf := temp.take (align4 length) ++
      (s.txBuffer s.txBufferIndex).drop (align4 length)
    let txBuffer := Function.update s.txBuffer s.txBufferIndex buf
    if s.txBufferIndex < txBufferCount - 1 then
      let txDesc := Function.update s.txDesc s.txBufferIndex
        { s.txDesc s.txBufferIndex with
          used := false
          wrap := false
          last := true
          length := length &&& GMAC_TX_LENGTH }
      let s1 := { s with
        txBuffer := txBuffer
        txDesc := txDesc
        txBufferIndex := s.txBufferIndex + 1
        tempTx := temp
        tstart := true }
      if (s1.txDesc s1.txBufferIndex).used then
        (error_t.NO_ERROR, { s1 with nicTxEvent := true })
      else
        (error_t.NO_ERROR, s1)
    else
      let txDesc := Function.update s.txDesc s.txBufferIndex
        { s.txDesc s.txBufferIndex with
          used := false
          wrap := true
          last := true
          length := length &&& GMAC_TX_LENGTH }
      let s1 := { s with
        txBuffer := txBuffer
        txDesc := txDesc
        txBufferIndex := 0
        tempTx := temp
        tstart := true }
      if (s1.txDesc s1.txBufferIndex).used then
        (error_t.NO_ERROR, { s1 with nicTxEvent := true })
      else
        (error_t.NO_ERROR, s1)

/-- Result of the first loop of `samv71EthReceivePacket`: the final
value of the loop counter `i`, the `sofIndex` and `eofIndex` locals
(`UINT_MAX` when not found) and the clipped frame `size` read from the
end-of-frame descriptor. -/
structure GmacRxScan where
  i : Nat
  sofIndex : Nat
  eofIndex : Nat
  size : Nat
deriving DecidableEq, Repr

/-- Recursive form of the first loop of `samv71EthReceivePacket`
(search for the SOF and EOF flags over the descriptors the DMA engine
has handed back, starting at the cursor).  The first `Nat` argument is
the remaining number of iterations (`count - i`), so the recursion
stops exactly when the C loop condition `i < SAMV71_ETH_RX_BUFFER_COUNT`
fails. -/
def samv71EthRxScanGo (rxDesc : Nat → GmacRxDesc) (count rxIndex : Nat) :
    Nat → Nat → Nat → GmacRxScan
  | 0, i, sofIndex => ⟨i, sofIndex, UINT_MAX, 0⟩
  | remaining + 1, i, sofIndex =>
    let j0 := rxIndex + i
    let j := if j0 ≥ count then j0 - count else j0
    let d := rxDesc j
    if d.own = false then
      ⟨i, sofIndex, UINT_MAX, 0⟩
    else
      let sofIndex := if d.sof then i else sofIndex
      if d.eof ∧ sofIndex ≠ UINT_MAX then
        ⟨i, sofIndex, i, min (d.length &&& GMAC_RX_LENGTH) ETH_MAX_FRAME_SIZE⟩
      else
        samv71EthRxScanGo rxDesc count rxIndex remaining (i + 1) sofIndex

/-- First loop of `samv71EthReceivePacket`, entered with `i = 0` and
`sofIndex = eofIndex = UINT_MAX`. -/
def samv71EthRxScan (rxDesc : Nat → GmacRxDesc) (count rxIndex : Nat) :
    GmacRxScan :=
  samv71EthRxScanGo rxDesc count rxIndex count 0 UINT_MAX

/-- Mutable locals of the second loop of `samv71EthReceivePacket`: the
descriptor array (ownership bits are cleared as entries are released),
the ring cursor `rxBufferIndex`, the scratch buffer `temp` and the byte
counters `length` (bytes copied so far) and `size` (bytes of the frame
still to copy). -/
structure GmacRxLoop where
  rxDesc : Nat → GmacRxDesc
  rxBufferIndex : Nat
  temp : List Nat
  length : Nat
  size : Nat

/-- One iteration of the second loop of `samv71EthReceivePacket`: when
the entry at position `i` lies inside a found SOF→EOF run, copy
`min(size, SAMV71_ETH_RX_BUFFER_SIZE)` bytes (rounded up to a multiple
of 4 by `osMemcpy(temp + length, rxBuffer[rxBufferIndex],
(n + 3) & ~3UL)`) out of the ring buffer at the cursor; in every case
clear the ownership bit of the descriptor at the cursor and advance the
cursor, wrapping at the ring capacity. -/
def samv71EthRxProcessStep (count bufSize sofIndex eofIndex : Nat)
    (rxBuffer : Nat → List Nat) (i : Nat) (st : GmacRxLoop) : GmacRxLoop :=
  let st :=
    if eofIndex ≠ UINT_MAX ∧ sofIndex ≤ i ∧ i ≤ eofIndex then
      let n := min st.size bufSize
      { st with
        temp := st.temp.take st.length ++
          (rxBuffer st.rxBufferIndex).take (align4 n) ++
          st.temp.drop (st.length + align4 n)
        length := st.length + n
        size := st.size - n }
    else st
  let st := { st with
    rxDesc := Function.update st.rxDesc st.rxBufferIndex
      { st.rxDesc st.rxBufferIndex with own := false } }
  let idx := st.rxBufferIndex + 1
  { st with rxBufferIndex := if idx ≥ count then 0 else idx }

/-- Recursive form of the second loop of `samv71EthReceivePacket`; the
first `Nat` argument is the remaining iteration count `j - i`. -/
def samv71EthRxProcessGo (count bufSize sofIndex eofIndex : Nat)
    (rxBuffer : Nat → List Nat) : Nat → Nat → GmacRxLoop → GmacRxLoop
  | 0, _, st => st
  | fuel + 1, i, st =>
    samv71EthRxProcessGo count bufSize sofIndex eofIndex rxBuffer fuel (i + 1)
      (samv71EthRxProcessStep count bufSize sofIndex eofIndex rxBuffer i st)

/-- Embedding of `samv71EthReceivePacket`: scan for a complete
SOF→EOF run, determine the number `j` of entries to process, run the
copy/release loop, and deliver the reassembled frame
(`nicProcessPacket(interface, temp, length)`) when any bytes were
copied, reporting `ERROR_BUFFER_EMPTY` otherwise. -/
def samv71EthReceivePacket (rxBufferCount rxBufferSize : Nat)
    (s : Samv71State) : error_t × Option (List Nat) × Samv71State :=
  let scan := samv71EthRxScan s.rxDesc rxBufferCount s.rxBufferIndex
  let j :=
    if scan.eofIndex ≠ UINT_MAX then scan.eofIndex + 1
    else if scan.sofIndex ≠ UINT_MAX then scan.sofIndex
    else scan.i
  let st0 : GmacRxLoop := ⟨s.rxDesc, s.rxBufferIndex, s.tempRx, 0, scan.size⟩
  let st := samv71EthRxProcessGo rxBufferCount rxBufferSize scan.sofIndex
    scan.eofIndex s.rxBuffer j 0 st0
  if st.length > 0 then
    (error_t.NO_ERROR, some (st.temp.take st.length),
      { s with
        rxDesc := st.rxDesc
        rxBufferIndex := st.rxBufferIndex
        tempRx := st.temp })
  else
    (error_t.ERROR_BUFFER_EMPTY, none,
      { s with
        rxDesc := st.rxDesc
        rxBufferIndex := st.rxBufferIndex
        tempRx := st.temp })

/-- One entry of `interface->macAddrFilter`: a 6-byte MAC address and a
reference count; entries with `refCount == 0` are skipped by the filter
update. -/
structure MacFilterEntry where
  addr : List Nat
  refCount : Nat
deriving DecidableEq, Repr

/-- Embedding of `macIsMulticastAddr` (`core/ethernet.h`): bit 0 of the
first address byte. -/
def macIsMulticastAddr (addr : List Nat) : Bool :=
  (addr.getD 0 0) &&& 1 != 0

/-- The shifted-XOR hash of `samv71EthUpdateMacAddrFilter`, reduced to a
6-bit index into the 64-bit hash table. -/
def samv71EthHashIndex (addr : List Nat) : Nat :=
  let p : Nat → Nat := fun i => addr.getD i 0
  let k := (p 0 >>> 6) ^^^ p 0
  let k := k ^^^ (p 1 >>> 4) ^^^ (p 1 <<< 2)
  let k := k ^^^ (p 2 >>> 2) ^^^ (p 2 <<< 4)
  let k := k ^^^ (p 3 >>> 6) ^^^ p 3
  let k := k ^^^ (p 4 >>> 4) ^^^ (p 4 <<< 2)
  let k := k ^^^ (p 5 >>> 2) ^^^ (p 5 <<< 4)
  k &&& 0x3F

/-- Locals of the entry loop of `samv71EthUpdateMacAddrFilter`: the
unicast counter `j`, the three exact-match slots `unicastMacAddr[3]`
(initialised to `MAC_UNSPECIFIED_ADDR`) and the two 32-bit words of the
hash table (`hashTable[0]` is written to `GMAC_HRB`, `hashTable[1]` to
`GMAC_HRT`). -/
structure GmacFilterState where
  j : Nat
  unicastMacAddr : Nat → List Nat
  hashTable0 : Nat
  hashTable1 : Nat

/-- Translation of `hashTable[k / 32] |= (1 << (k % 32))`. -/
def gmacHashTableSet (st : GmacFilterState) (k : Nat) : GmacFilterState :=
  if k / 32 = 0 then
    { st with hashTable0 := st.hashTable0 ||| (1 <<< (k % 32)) }
  else
    { st with hashTable1 := st.hashTable1 ||| (1 <<< (k % 32)) }

/-- One iteration of the entry loop of `samv71EthUpdateMacAddrFilter`:
inactive entries are skipped; an active multicast address is hashed into
the table; an active unicast address is stored into exact-match slot `j`
while `j < 3` and hashed into the table otherwise, and `j` is
incremented for every active unicast address. -/
def samv71EthFilterStep (st : GmacFilterState) (entry : MacFilterEntry) :
    GmacFilterState :=
  if entry.refCount > 0 then
    if macIsMulticastAddr entry.addr then
      gmacHashTableSet st (samv71EthHashIndex entry.addr)
    else
      let st :=
        if st.j < 3 then
          { st with unicastMacAddr :=
              Function.update st.unicastMacAddr st.j entry.addr }
        else
          gmacHashTableSet st (samv71EthHashIndex entry.addr)
      { st with j := st.j + 1 }
  else st

/-- Embedding of the entry loop of `samv71EthUpdateMacAddrFilter` over
the whole filter array (`MAC_ADDR_FILTER_SIZE` entries, modelled as a
list). -/
def samv71EthUpdateMacAddrFilter (entries : List MacFilterEntry) :
    GmacFilterState :=
  entries.foldl samv71EthFilterStep
    { j := 0
      unicastMacAddr := fun _ => List.replicate 6 0
      hashTable0 := 0
      hashTable1 := 0 }

/-- Bit `k` of the 64-bit hash bitmap held as two 32-bit words. -/
def hashTableBit (w0 w1 : Nat) (k : Nat) : Bool :=
  if k / 32 = 0 then w0.testBit (k % 32) else w1.testBit (k % 32)

/-- One round of the inner bit loop of `mimxrt1160Eth2CalcCrc`. -/
def crc32Round (crc : Nat) : Nat :=
  if crc &&& 1 ≠ 0 then (crc >>> 1) ^^^ 0xEDB88320 else crc >>> 1

/-- Embedding of `mimxrt1160Eth2CalcCrc`: reflected CRC-32 with
polynomial `0xEDB88320` and preset `0xFFFFFFFF`; each data byte is
XOR-ed into the accumulator and then processed by eight
least-significant-bit-first rounds. -/
def mimxrt1160Eth2CalcCrc (data : List Nat) : Nat :=
  data.foldl
    (fun crc p => (List.range 8).foldl (fun c _ => crc32Round c) (crc ^^^ p))
    0xFFFFFFFF

/-- The 6-bit hash-table index derived in
`mimxrt1160Eth2UpdateMacAddrFilter`: the upper 6 bits of the CRC-32 of
the 6 address bytes (`k = (crc >> 26) & 0x3F`). -/
def mimxrt1160Eth2HashIndex (addr : List Nat) : Nat :=
  (mimxrt1160Eth2CalcCrc addr >>> 26) &&& 0x3F

/-- Locals of the entry loop of `mimxrt1160Eth2UpdateMacAddrFilter`:
the two-word unicast hash table (written to `ENET_1G->IALR` /
`ENET_1G->IAUR`) and the two-word multicast hash table (written to
`ENET_1G->GALR` / `ENET_1G->GAUR`). -/
structure EnetFilterState where
  unicastHashTable0 : Nat
  unicastHashTable1 : Nat
  multicastHashTable0 : Nat
  multicastHashTable1 : Nat
deriving DecidableEq, Repr

/-- One iteration of the entry loop of
`mimxrt1160Eth2UpdateMacAddrFilter`: every active entry is hashed, into
the multicast table when the address is multicast and into the unicast
table otherwise. -/
def mimxrt1160Eth2FilterStep (st : EnetFilterState) (entry : MacFilterEntry) :
    EnetFilterState :=
  if entry.refCount > 0 then
    let k := mimxrt1160Eth2HashIndex entry.addr
    if macIsMulticastAddr entry.addr then
      if k / 32 = 0 then
        { st with multicastHashTable0 :=
            st.multicastHashTable0 ||| (1 <<< (k % 32)) }
      else
        { st with multicastHashTable1 :=
            st.multicastHashTable1 ||| (1 <<< (k % 32)) }
    else
      if k / 32 = 0 then
        { st with unicastHashTable0 :=
            st.unicastHashTable0 ||| (1 <<< (k % 32)) }
      else
        { st with unicastHashTable1 :=
            st.unicastHashTable1 ||| (1 <<< (k % 32)) }
  else st

/-- Embedding of the entry loop of
`mimxrt1160Eth2UpdateMacAddrFilter`. -/
def mimxrt1160Eth2UpdateMacAddrFilter (entries : List MacFilterEntry) :
    EnetFilterState :=
  entries.foldl mimxrt1160Eth2FilterStep ⟨0, 0, 0, 0⟩

/-- Modelled from the spec: the Clause-22 write opcode
(`SMI_OPCODE_WRITE` from `core/nic.h`, not among the sources). -/
def SMI_OPCODE_WRITE : Nat := 1

/-- Modelled from the spec: the Clause-22 read opcode
(`SMI_OPCODE_READ` from `core/nic.h`, not among the sources). -/
def SMI_OPCODE_READ : Nat := 2

/-- One management-bus frame issued through the MAC management register
(`GMAC_MAN` on the SAMV71, `ENET_1G->MMFR` on the i.MX RT1160).  The
per-chip register encoding lives behind the out-of-scope register
layout; the frame records the information the encoding carries. -/
structure SmiTransaction where
  write : Bool
  phyAddr : Nat
  regAddr : Nat
  data : Nat
deriving DecidableEq, Repr

/-- State of the management bus: the list of frames issued to the
peripheral so far, and the 16-bit data the addressed PHY register would
deliver on a read. -/
structure SmiBus where
  log : List SmiTransaction
  readValue : Nat
deriving DecidableEq, Repr

/-- Modelled from the spec: the 16-bit data-field mask of the
management register (`GMAC_MAN_DATA_Msk` / `ENET_MMFR_DATA_MASK`, not
among the sources). -/
def SMI_DATA_MASK : Nat := 0xFFFF

/-- Embedding of `samv71EthWritePhyReg`: a `SMI_OPCODE_WRITE` request
starts a management frame and busy-waits for completion; any other
opcode does nothing ("The MAC peripheral only supports standard Clause
22 opcodes"). -/
def samv71EthWritePhyReg (opcode phyAddr regAddr data : Nat)
    (bus : SmiBus) : SmiBus :=
  if opcode = SMI_OPCODE_WRITE then
    { bus with log := bus.log ++ [⟨true, phyAddr, regAddr, data⟩] }
  else
    bus

/-- Embedding of `samv71EthReadPhyReg`: a `SMI_OPCODE_READ` request
starts a management frame, busy-waits, and returns the data field of
the management register; any other opcode returns 0 without touching
the peripheral. -/
def samv71EthReadPhyReg (opcode phyAddr regAddr : Nat) (bus : SmiBus) :
    Nat × SmiBus :=
  if opcode = SMI_OPCODE_READ then
    (bus.readValue &&& SMI_DATA_MASK,
      { bus with log := bus.log ++ [⟨false, phyAddr, regAddr, 0⟩] })
  else
    (0, bus)

/-- Embedding of `mimxrt1160Eth2WritePhyReg`; structurally identical to
`samv71EthWritePhyReg`. -/
def mimxrt1160Eth2WritePhyReg (opcode phyAddr regAddr data : Nat)
    (bus : SmiBus) : SmiBus :=
  if opcode = SMI_OPCODE_WRITE then
    { bus with log := bus.log ++ [⟨true, phyAddr, regAddr, data⟩] }
  else
    bus

/-- Embedding of `mimxrt1160Eth2ReadPhyReg`; structurally identical to
`samv71EthReadPhyReg`. -/
def mimxrt1160Eth2ReadPhyReg (opcode phyAddr regAddr : Nat) (bus : SmiBus) :
    Nat × SmiBus :=
  if opcode = SMI_OPCODE_READ then
    (bus.readValue &&& SMI_DATA_MASK,
      { bus with log := bus.log ++ [⟨false, phyAddr, regAddr, 0⟩] })
  else
    (0, bus)

/-- Modelled from the spec: one bit of the reference CRC-32 ("the top 6
bits of a standard CRC-32 (polynomial `0xEDB88320`, initial value
all-ones, processed LSB-first per byte)").  For each input bit the
accumulator is shifted right one position and XOR-ed with the polynomial
exactly when the bit shifted out differs from the input bit. -/
def crc32SpecBitStep (c : Nat) (bit : Bool) : Nat :=
  if c.testBit 0 ≠ bit then (c >>> 1) ^^^ 0xEDB88320 else c >>> 1

/-- Modelled from the spec: the reference CRC-32 over a byte sequence,
initial value all-ones, each byte processed least-significant bit
first. -/
def crc32Spec (data : List Nat) : Nat :=
  data.foldl
    (fun c b => (List.range 8).foldl (fun c i => crc32SpecBitStep c (b.testBit i)) c)
    0xFFFFFFFF

/-- An idle ENET driver state over a 2-descriptor ring with 8-byte
buffers, used to instantiate theorems at concrete inputs. -/
def enetSampleState : EnetState :=
  { txDesc := fun i => mimxrt1160Eth2TxDescCleared i
    rxDesc := fun i => mimxrt1160Eth2RxDescCleared i
    txBuffer := fun _ => List.replicate 8 0
    rxBuffer := fun _ => List.replicate 8 0
    txBufferIndex := 0
    rxBufferIndex := 0
    tempTx := List.replicate 8 0
    tempRx := List.replicate 8 0
    nicTxEvent := false
    tdar := false
    rdar := false }

/-- An idle GMAC driver state over a 2-descriptor ring with 8-byte
buffers. -/
def samv71SampleState : Samv71State :=
  { txDesc := fun i =>
      { addr := i, used := true, wrap := false, last := false, length := 0 }
    rxDesc := fun i =>
      { addr := i
        own := false
        wrap := false
        sof := false
        eof := false
        length := 0 }
    txBuffer := fun _ => List.replicate 8 0
    rxBuffer := fun _ => List.replicate 8 0
    txBufferIndex := 0
    rxBufferIndex := 0
    tempTx := List.replicate 8 0
    tempRx := List.replicate 8 0
    nicTxEvent := false
    tstart := false }

/-- The sample ENET state with every transmit descriptor still owned by
the DMA engine (ready bit set). -/
def enetBusyState : EnetState :=
  { enetSampleState with
    txDesc := fun i => { mimxrt1160Eth2TxDescCleared i with r := true } }

/-- The sample GMAC state with every transmit descriptor still owned by
the DMA engine (used bit clear). -/
def samv71BusyState : Samv71State :=
  { samv71SampleState with
    txDesc := fun i =>
      { addr := i, used := false, wrap := false, last := false, length := 0 } }

/-- The sample ENET state after the DMA engine handed back the
descriptor at the cursor carrying a CRC error. -/
def enetRxErrorState : EnetState :=
  { enetSampleState with
    rxDesc := Function.update enetSampleState.rxDesc 0
      { enetSampleState.rxDesc 0 with
        e := false
        l := true
        cr := true
        dataLength := 3 } }

/-- The sample GMAC state after the DMA engine released the descriptor
at the cursor as a stray fragment and the following descriptor with a
start-of-frame whose end has not arrived yet. -/
def samv71PendingState : Samv71State :=
  { samv71SampleState with
    rxDesc := fun i =>
      if i = 0 then
        { addr := 0, own := true, wrap := false, sof := false, eof := false,
          length := 0 }
      else if i = 1 then
        { addr := 1, own := true, wrap := true, sof := true, eof := false,
          length := 0 }
      else
        samv71SampleState.rxDesc i }

/-- A management bus with an empty transaction log and a known read
value. -/
def sampleSmiBus : SmiBus :=
  { log := [], readValue := 0x1234 }

/-- The ENET state after sending the frame `[1, 2, 3]` from the idle
sample state. -/
def enetC1SendOut : EnetState :=
  (mimxrt1160Eth2SendPacket 2 8 [1, 2, 3] enetSampleState).2

/-- Mock-DMA completion of the frame sent in `enetC1SendOut`: the bytes
of the transmitted buffer are presented in the receive buffer at the
cursor, whose descriptor is marked complete with the same declared
length. -/
def enetC1MockState : EnetState :=
  { enetC1SendOut with
    rxDesc := Function.update enetC1SendOut.rxDesc 0
      { enetC1SendOut.rxDesc 0 with e := false, l := true, dataLength := 3 }
    rxBuffer := Function.update enetC1SendOut.rxBuffer 0
      (enetC1SendOut.txBuffer 0) }

/-- The GMAC state after sending the frame `[1, 2, 3]` from the idle
sample state. -/
def samv71C1SendOut : Samv71State :=
  (samv71EthSendPacket 2 8 [1, 2, 3] samv71SampleState).2

/-- Mock-DMA completion of the frame sent in `samv71C1SendOut` as a
single completed receive descriptor (ownership handed to software,
start- and end-of-frame set, same declared length, same bytes). -/
def samv71C1MockState : Samv71State :=
  { samv71C1SendOut with
    rxDesc := Function.update samv71C1SendOut.rxDesc 0
      { samv71C1SendOut.rxDesc 0 with
        own := true
        sof := true
        eof := true
        length := 3 }
    rxBuffer := Function.update samv71C1SendOut.rxBuffer 0
      (samv71C1SendOut.txBuffer 0) }

/-- Pure form of the release-and-advance effect of the second loop of
`samv71EthReceivePacket` when no copy takes place: clear the ownership
bit of `fuel` consecutive descriptors starting at the cursor, advancing
with wrap-around; returns the descriptor array and the final cursor. -/
def gmacReleaseRun (count : Nat) :
    Nat → (Nat → GmacRxDesc) → Nat → (Nat → GmacRxDesc) × Nat
  | 0, rxDesc, idx => (rxDesc, idx)
  | fuel + 1, rxDesc, idx =>
    let rxDesc := Function.update rxDesc idx { rxDesc idx with own := false }
    let idx2 := idx + 1
    gmacReleaseRun count fuel rxDesc (if idx2 ≥ count then 0 else idx2)

/-- Addresses of the active (`refCount > 0`) unicast entries of a
filter table, in table order. -/
def activeUnicastAddrs (entries : List MacFilterEntry) : List (List Nat) :=
  (entries.filter
    (fun e => decide (0 < e.refCount) && !(macIsMulticastAddr e.addr))).map
    MacFilterEntry.addr

/-- Bit `k` of the GMAC hash table accumulated by
`samv71EthUpdateMacAddrFilter`. -/
def gmacFilterBit (st : GmacFilterState) (k : Nat) : Bool :=
  hashTableBit st.hashTable0 st.hashTable1 k

/-- Bit `k` of the ENET multicast (`mult = true`) or unicast hash table
accumulated by `mimxrt1160Eth2UpdateMacAddrFilter`. -/
def enetFilterBit (st : EnetFilterState) (mult : Bool) (k : Nat) : Bool :=
  if mult then hashTableBit st.multicastHashTable0 st.multicastHashTable1 k
  else hashTableBit st.unicastHashTable0 st.unicastHashTable1 k

/-- A sample filter table: one active multicast entry, four active
unicast entries (one more than the three exact-match slots) and one
inactive entry. -/
def sampleFilterEntries : List MacFilterEntry :=
  [{ addr := [0x01, 0x00, 0x5E, 0x00, 0x00, 0x01], refCount := 1 },
   { addr := [0x10, 0x00, 0x00, 0x00, 0x00, 0x01], refCount := 1 },
   { addr := [0x10, 0x00, 0x00, 0x00, 0x00, 0x02], refCount := 1 },
   { addr := [0x00, 0x00, 0x00, 0x00, 0x00, 0x09], refCount := 0 },
   { addr := [0x10, 0x00, 0x00, 0x00, 0x00, 0x03], refCount := 1 },
   { addr := [0x10, 0x00, 0x00, 0x00, 0x00, 0x04], refCount := 1 }]

theorem le_align4 (n : Nat) : n ≤ align4 n := by
  unfold align4
  have h : (n + 3) % 4 < 4 := Nat.mod_lt _ (by decide)
  omega

theorem align4_le (n : Nat) : align4 n ≤ n + 3 := by
  unfold align4; omega

/-- C3: for every frame whose length exceeds the transmit buffer size,
the send path of either driver fails with `ERROR_INVALID_LENGTH`, leaves
the entire ring state (descriptors, buffers, cursor) unchanged, and
still raises the transmitter-ready event toward the upper layer before
returning. -/
theorem sendPacket_invalid_length_signals_ready
    (txBufferCount txBufferSize : Nat) (packet : List Nat)
    (sE : EnetState) (sG : Samv71State)
    (h : packet.length > txBufferSize) :
    mimxrt1160Eth2SendPacket txBufferCount txBufferSize packet sE =
      (error_t.ERROR_INVALID_LENGTH, { sE with nicTxEvent := true }) ∧
    samv71EthSendPacket txBufferCount txBufferSize packet sG =
      (error_t.ERROR_INVALID_LENGTH, { sG with nicTxEvent := true }) := by
  constructor
  · simp [mimxrt1160Eth2SendPacket, h]
  · simp [samv71EthSendPacket, h]

/-- Witness for C3 at a 9-byte frame over 8-byte buffers. -/
theorem sendPacket_invalid_length_signals_ready_witness :
    mimxrt1160Eth2SendPacket 2 8 (List.replicate 9 1) enetSampleState =
      (error_t.ERROR_INVALID_LENGTH, { enetSampleState with nicTxEvent := true }) ∧
    samv71EthSendPacket 2 8 (List.replicate 9 1) samv71SampleState =
      (error_t.ERROR_INVALID_LENGTH, { samv71SampleState with nicTxEvent := true }) :=
  sendPacket_invalid_length_signals_ready 2 8 (List.replicate 9 1)
    enetSampleState samv71SampleState (by decide)

/-- C2: when the descriptor at the transmit cursor is still owned by the
DMA engine (`ENET_TBD0_R` set for the ENET, `GMAC_TX_USED` clear for the
GMAC), sending any frame of valid length fails with `ERROR_FAILURE`
(the specification's `Busy`), and the state — every descriptor, every
buffer, the cursor, and the event flags — is returned exactly as it
was. -/
theorem sendPacket_busy_leaves_state_unchanged
    (txBufferCount txBufferSize : Nat) (packetE packetG : List Nat)
    (sE : EnetState) (sG : Samv71State)
    (hlE : packetE.length ≤ txBufferSize)
    (hlG : packetG.length ≤ txBufferSize)
    (hE : (sE.txDesc sE.txBufferIndex).r = true)
    (hG : (sG.txDesc sG.txBufferIndex).used = false) :
    mimxrt1160Eth2SendPacket txBufferCount txBufferSize packetE sE =
      (error_t.ERROR_FAILURE, sE) ∧
    samv71EthSendPacket txBufferCount txBufferSize packetG sG =
      (error_t.ERROR_FAILURE, sG) := by
  constructor
  · simp [mimxrt1160Eth2SendPacket, Nat.not_lt.mpr hlE, hE]
  · simp [samv71EthSendPacket, Nat.not_lt.mpr hlG, hG]

/-- Witness for C2 on rings whose transmit descriptors are all
DMA-owned. -/
theorem sendPacket_busy_leaves_state_unchanged_witness :
    mimxrt1160Eth2SendPacket 2 8 [1, 2, 3] enetBusyState =
      (error_t.ERROR_FAILURE, enetBusyState) ∧
    samv71EthSendPacket 2 8 [1, 2, 3] samv71BusyState =
      (error_t.ERROR_FAILURE, samv71BusyState) :=
  sendPacket_busy_leaves_state_unchanged 2 8 [1, 2, 3] [1, 2, 3]
    enetBusyState samv71BusyState (by decide) (by decide) (by decide) (by decide)

/-- C9: for every opcode other than the standard Clause-22 one, the
management-bus write is a no-op on the bus, and the management-bus read
returns 0 without issuing any management frame; neither operation has
an error channel (both C functions return no error code). -/
theorem phyReg_invalid_opcode_noop
    (opcode phyAddr regAddr data : Nat) (bus : SmiBus) :
    (opcode ≠ SMI_OPCODE_WRITE →
      samv71EthWritePhyReg opcode phyAddr regAddr data bus = bus ∧
      mimxrt1160Eth2WritePhyReg opcode phyAddr regAddr data bus = bus) ∧
    (opcode ≠ SMI_OPCODE_READ →
      samv71EthReadPhyReg opcode phyAddr regAddr bus = (0, bus) ∧
      mimxrt1160Eth2ReadPhyReg opcode phyAddr regAddr bus = (0, bus)) := by
  constructor
  · intro h
    constructor <;> simp [samv71EthWritePhyReg, mimxrt1160Eth2WritePhyReg, h]
  · intro h
    constructor <;> simp [samv71EthReadPhyReg, mimxrt1160Eth2ReadPhyReg, h]

/-- Witness for C9 at opcode 0 (neither read nor write). -/
theorem phyReg_invalid_opcode_noop_witness :
    samv71EthWritePhyReg 0 1 2 0xABCD sampleSmiBus = sampleSmiBus ∧
    samv71EthReadPhyReg 0 1 2 sampleSmiBus = (0, sampleSmiBus) ∧
    mimxrt1160Eth2ReadPhyReg 0 1 2 sampleSmiBus = (0, sampleSmiBus) :=
  ⟨((phyReg_invalid_opcode_noop 0 1 2 0xABCD sampleSmiBus).1 (by decide)).1,
   ((phyReg_invalid_opcode_noop 0 1 2 0xABCD sampleSmiBus).2 (by decide)).1,
   ((phyReg_invalid_opcode_noop 0 1 2 0xABCD sampleSmiBus).2 (by decide)).2⟩

/-- C4: after descriptor-ring initialization, in each of the four rings
(ENET TX/RX, GMAC TX/RX) the wrap flag is carried exactly by the
descriptor at index capacity − 1; every receive descriptor is owned by
the DMA engine (`E` set on the ENET, ownership bit clear on the GMAC),
every transmit descriptor is owned by software (`R` clear on the ENET,
`USED` set on the GMAC), and both cursors are reset to 0. -/
theorem initBufferDesc_ring_invariants
    (txCountE rxCountE txCountG rxCountG : Nat)
    (sE : EnetState) (sG : Samv71State) :
    ((mimxrt1160Eth2InitBufferDesc txCountE rxCountE sE).txBufferIndex = 0 ∧
     (mimxrt1160Eth2InitBufferDesc txCountE rxCountE sE).rxBufferIndex = 0 ∧
     (∀ i, i < txCountE →
       (((mimxrt1160Eth2InitBufferDesc txCountE rxCountE sE).txDesc i).w = true ↔
          i = txCountE - 1) ∧
       ((mimxrt1160Eth2InitBufferDesc txCountE rxCountE sE).txDesc i).r = false) ∧
     (∀ i, i < rxCountE →
       (((mimxrt1160Eth2InitBufferDesc txCountE rxCountE sE).rxDesc i).w = true ↔
          i = rxCountE - 1) ∧
       ((mimxrt1160Eth2InitBufferDesc txCountE rxCountE sE).rxDesc i).e = true)) ∧
    ((samv71EthInitBufferDesc txCountG rxCountG sG).txBufferIndex = 0 ∧
     (samv71EthInitBufferDesc txCountG rxCountG sG).rxBufferIndex = 0 ∧
     (∀ i, i < txCountG →
       (((samv71EthInitBufferDesc txCountG rxCountG sG).txDesc i).wrap = true ↔
          i = txCountG - 1) ∧
       ((samv71EthInitBufferDesc txCountG rxCountG sG).txDesc i).used = true) ∧
     (∀ i, i < rxCountG →
       (((samv71EthInitBufferDesc txCountG rxCountG sG).rxDesc i).wrap = true ↔
          i = rxCountG - 1) ∧
       ((samv71EthInitBufferDesc txCountG rxCountG sG).rxDesc i).own = false)) := by
  refine ⟨⟨rfl, rfl, ?_, ?_⟩, ⟨rfl, rfl, ?_, ?_⟩⟩
  · intro i hi
    by_cases h : i = txCountE - 1 <;>
      simp [mimxrt1160Eth2InitBufferDesc, mimxrt1160Eth2TxDescCleared,
        Function.update_apply, h]
  · intro i hi
    by_cases h : i = rxCountE - 1 <;>
      simp [mimxrt1160Eth2InitBufferDesc, mimxrt1160Eth2RxDescCleared,
        Function.update_apply, h]
  · intro i hi
    by_cases h : i = txCountG - 1 <;>
      simp [samv71EthInitBufferDesc, Function.update_apply, h]
  · intro i hi
    by_cases h : i = rxCountG - 1 <;>
      simp [samv71EthInitBufferDesc, Function.update_apply, h]

/-- Witness for C4 on 2-descriptor rings: the wrap flag sits on index 1
and not on index 0, ownership is as initialized, cursors are 0. -/
theorem initBufferDesc_ring_invariants_witness :
    (mimxrt1160Eth2InitBufferDesc 2 2 enetSampleState).txBufferIndex = 0 ∧
    (((mimxrt1160Eth2InitBufferDesc 2 2 enetSampleState).txDesc 1).w = true ↔
      1 = 2 - 1) ∧
    ((mimxrt1160Eth2InitBufferDesc 2 2 enetSampleState).rxDesc 0).e = true ∧
    (((samv71EthInitBufferDesc 2 2 samv71SampleState).txDesc 0).wrap = true ↔
      0 = 2 - 1) ∧
    ((samv71EthInitBufferDesc 2 2 samv71SampleState).rxDesc 1).own = false :=
  ⟨(initBufferDesc_ring_invariants 2 2 2 2 enetSampleState samv71SampleState).1.1,
   ((initBufferDesc_ring_invariants 2 2 2 2 enetSampleState
      samv71SampleState).1.2.2.1 1 (by decide)).1,
   ((initBufferDesc_ring_invariants 2 2 2 2 enetSampleState
      samv71SampleState).1.2.2.2 0 (by decide)).2,
   ((initBufferDesc_ring_invariants 2 2 2 2 enetSampleState
      samv71SampleState).2.2.2.1 0 (by decide)).1,
   ((initBufferDesc_ring_invariants 2 2 2 2 enetSampleState
      samv71SampleState).2.2.2.2 1 (by decide)).2⟩

/-- C8: in the single-descriptor receive model, when the DMA engine has
handed back the descriptor at the cursor (`E` clear): a missing
last-buffer flag or any error flag (oversize `LG`, non-octet `NO`, CRC
error `CR`, overrun `OV`, truncated `TR`) yields
`ERROR_INVALID_PACKET` with nothing delivered; the result is never the
buffer-empty sentinel; the descriptor is handed back to the DMA engine
with its flags and length field cleared (wrap flag set exactly on the
wrap slot); and the cursor advances by one modulo the ring capacity. -/
theorem mimxrt1160Eth2ReceivePacket_invalid_and_release
    (rxBufferCount rxBufferSize : Nat) (s : EnetState)
    (hc : s.rxBufferIndex < rxBufferCount)
    (he : (s.rxDesc s.rxBufferIndex).e = false) :
    (((s.rxDesc s.rxBufferIndex).l = false ∨
        ((s.rxDesc s.rxBufferIndex).lg || (s.rxDesc s.rxBufferIndex).no ||
         (s.rxDesc s.rxBufferIndex).cr || (s.rxDesc s.rxBufferIndex).ov ||
         (s.rxDesc s.rxBufferIndex).tr) = true) →
      (mimxrt1160Eth2ReceivePacket rxBufferCount rxBufferSize s).1 =
        error_t.ERROR_INVALID_PACKET ∧
      (mimxrt1160Eth2ReceivePacket rxBufferCount rxBufferSize s).2.1 = none) ∧
    (mimxrt1160Eth2ReceivePacket rxBufferCount rxBufferSize s).1 ≠
      error_t.ERROR_BUFFER_EMPTY ∧
    (mimxrt1160Eth2ReceivePacket rxBufferCount rxBufferSize s).2.2.rxDesc
        s.rxBufferIndex =
      { s.rxDesc s.rxBufferIndex with
        e := true
        w := decide (¬ s.rxBufferIndex < rxBufferCount - 1)
        l := false
        lg := false
        no := false
        cr := false
        ov := false
        tr := false
        dataLength := 0
        bdu := false } ∧
    (mimxrt1160Eth2ReceivePacket rxBufferCount rxBufferSize s).2.2.rxBufferIndex =
      (s.rxBufferIndex + 1) % rxBufferCount := by
  by_cases hw : s.rxBufferIndex < rxBufferCount - 1
  · refine ⟨?_, ?_, ?_, ?_⟩
    · intro hbad
      rcases hbad with hl | herr
      · simp [mimxrt1160Eth2ReceivePacket, he, hl, hw]
      · by_cases hl : (s.rxDesc s.rxBufferIndex).l <;>
          simp [mimxrt1160Eth2ReceivePacket, he, hl, herr, hw]
    · by_cases hl : (s.rxDesc s.rxBufferIndex).l <;>
        by_cases herr : ((s.rxDesc s.rxBufferIndex).lg ||
            (s.rxDesc s.rxBufferIndex).no || (s.rxDesc s.rxBufferIndex).cr ||
            (s.rxDesc s.rxBufferIndex).ov || (s.rxDesc s.rxBufferIndex).tr) =
            true <;>
          simp [mimxrt1160Eth2ReceivePacket, he, hl, herr, hw]
    · simp [mimxrt1160Eth2ReceivePacket, he, hw, Function.update_apply]
    · have hlt : s.rxBufferIndex + 1 < rxBufferCount := by omega
      simp [mimxrt1160Eth2ReceivePacket, he, hw, Nat.mod_eq_of_lt hlt]
  · refine ⟨?_, ?_, ?_, ?_⟩
    · intro hbad
      rcases hbad with hl | herr
      · simp [mimxrt1160Eth2ReceivePacket, he, hl, hw]
      · by_cases hl : (s.rxDesc s.rxBufferIndex).l <;>
          simp [mimxrt1160Eth2ReceivePacket, he, hl, herr, hw]
    · by_cases hl : (s.rxDesc s.rxBufferIndex).l <;>
        by_cases herr : ((s.rxDesc s.rxBufferIndex).lg ||
            (s.rxDesc s.rxBufferIndex).no || (s.rxDesc s.rxBufferIndex).cr ||
            (s.rxDesc s.rxBufferIndex).ov || (s.rxDesc s.rxBufferIndex).tr) =
            true <;>
          simp [mimxrt1160Eth2ReceivePacket, he, hl, herr, hw]
    · simp [mimxrt1160Eth2ReceivePacket, he, hw, Function.update_apply]
    · have hone : s.rxBufferIndex + 1 = rxBufferCount := by omega
      simp [mimxrt1160Eth2ReceivePacket, he, hw, hone, Nat.mod_self]

/-- Witness for C8 at a completed descriptor carrying a CRC error. -/
theorem mimxrt1160Eth2ReceivePacket_invalid_and_release_witness :
    ((enetRxErrorState.rxDesc enetRxErrorState.rxBufferIndex).l = false ∨
      ((enetRxErrorState.rxDesc enetRxErrorState.rxBufferIndex).lg ||
       (enetRxErrorState.rxDesc enetRxErrorState.rxBufferIndex).no ||
       (enetRxErrorState.rxDesc enetRxErrorState.rxBufferIndex).cr ||
       (enetRxErrorState.rxDesc enetRxErrorState.rxBufferIndex).ov ||
       (enetRxErrorState.rxDesc enetRxErrorState.rxBufferIndex).tr) = true) ∧
    ((mimxrt1160Eth2ReceivePacket 2 8 enetRxErrorState).1 =
      error_t.ERROR_INVALID_PACKET ∧
     (mimxrt1160Eth2ReceivePacket 2 8 enetRxErrorState).2.1 = none) ∧
    (mimxrt1160Eth2ReceivePacket 2 8 enetRxErrorState).2.2.rxBufferIndex =
      (enetRxErrorState.rxBufferIndex + 1) % 2 :=
  ⟨Or.inr (by decide),
   (mimxrt1160Eth2ReceivePacket_invalid_and_release 2 8 enetRxErrorState
      (by decide) (by decide)).1 (Or.inr (by decide)),
   (mimxrt1160Eth2ReceivePacket_invalid_and_release 2 8 enetRxErrorState
      (by decide) (by decide)).2.2.2⟩

/-- A receive poll on a descriptor the DMA engine still owns returns
the buffer-empty sentinel and leaves the state untouched. -/
theorem mimxrt1160Eth2ReceivePacket_of_empty
    (rxBufferCount rxBufferSize : Nat) (s : EnetState)
    (he : (s.rxDesc s.rxBufferIndex).e = true) :
    mimxrt1160Eth2ReceivePacket rxBufferCount rxBufferSize s =
      (error_t.ERROR_BUFFER_EMPTY, none, s) := by
  simp [mimxrt1160Eth2ReceivePacket, he]

/-- A receive poll on a descriptor the DMA engine has handed back never
returns the buffer-empty sentinel. -/
theorem mimxrt1160Eth2ReceivePacket_ne_empty
    (rxBufferCount rxBufferSize : Nat) (s : EnetState)
    (he : (s.rxDesc s.rxBufferIndex).e = false) :
    (mimxrt1160Eth2ReceivePacket rxBufferCount rxBufferSize s).1 ≠
      error_t.ERROR_BUFFER_EMPTY := by
  by_cases hw : s.rxBufferIndex < rxBufferCount - 1 <;>
    by_cases hl : (s.rxDesc s.rxBufferIndex).l <;>
      by_cases herr : ((s.rxDesc s.rxBufferIndex).lg ||
          (s.rxDesc s.rxBufferIndex).no || (s.rxDesc s.rxBufferIndex).cr ||
          (s.rxDesc s.rxBufferIndex).ov || (s.rxDesc s.rxBufferIndex).tr) =
          true <;>
        simp [mimxrt1160Eth2ReceivePacket, he, hl, herr, hw]

/-- A receive poll on a descriptor the DMA engine has handed back gives
that descriptor back to the engine (some descriptor value with the `E`
bit set is written at the cursor) and keeps the cursor inside the
ring. -/
theorem mimxrt1160Eth2ReceivePacket_releases
    (rxBufferCount rxBufferSize : Nat) (s : EnetState)
    (hc : s.rxBufferIndex < rxBufferCount)
    (he : (s.rxDesc s.rxBufferIndex).e = false) :
    ∃ d : EnetRxDesc, d.e = true ∧
      (mimxrt1160Eth2ReceivePacket rxBufferCount rxBufferSize s).2.2.rxDesc =
        Function.update s.rxDesc s.rxBufferIndex d ∧
      (mimxrt1160Eth2ReceivePacket rxBufferCount rxBufferSize
        s).2.2.rxBufferIndex < rxBufferCount := by
  by_cases hw : s.rxBufferIndex < rxBufferCount - 1
  · refine ⟨{ s.rxDesc s.rxBufferIndex with
      e := true
      w := false
      l := false
      lg := false
      no := false
      cr := false
      ov := false
      tr := false
      dataLength := 0
      bdu := false }, rfl, ?_, ?_⟩ <;>
      simp [mimxrt1160Eth2ReceivePacket, he, hw]
    omega
  · refine ⟨{ s.rxDesc s.rxBufferIndex with
      e := true
      w := true
      l := false
      lg := false
      no := false
      cr := false
      ov := false
      tr := false
      dataLength := 0
      bdu := false }, rfl, ?_, ?_⟩ <;>
      simp [mimxrt1160Eth2ReceivePacket, he, hw]
    omega

/-- Handing one software-held receive descriptor back to the DMA engine
strictly decreases the number of software-held descriptors in the
ring. -/
theorem enetHwReleasedCount_update_lt
    (rxBufferCount : Nat) (s s' : EnetState) (d : EnetRxDesc)
    (hc : s.rxBufferIndex < rxBufferCount)
    (he : (s.rxDesc s.rxBufferIndex).e = false)
    (hd : d.e = true)
    (hdesc : s'.rxDesc = Function.update s.rxDesc s.rxBufferIndex d) :
    enetHwReleasedCount rxBufferCount s' < enetHwReleasedCount rxBufferCount s := by
  unfold enetHwReleasedCount
  have hmem : s.rxBufferIndex ∈
      (Finset.range rxBufferCount).filter (fun i => (s.rxDesc i).e = false) := by
    simp [Finset.mem_filter, Finset.mem_range, hc, he]
  have hsub : (Finset.range rxBufferCount).filter
        (fun i => (s'.rxDesc i).e = false) ⊆
      ((Finset.range rxBufferCount).filter
        (fun i => (s.rxDesc i).e = false)).erase s.rxBufferIndex := by
    intro q hq
    rw [Finset.mem_filter, Finset.mem_range] at hq
    rcases hq with ⟨hq1, hq2⟩
    rw [hdesc, Function.update_apply] at hq2
    by_cases hqi : q = s.rxBufferIndex
    · rw [if_pos hqi, hd] at hq2
      exact absurd hq2 (by simp)
    · rw [if_neg hqi] at hq2
      rw [Finset.mem_erase, Finset.mem_filter, Finset.mem_range]
      exact ⟨hqi, hq1, hq2⟩
  exact lt_of_le_of_lt (Finset.card_le_card hsub)
    (Finset.card_erase_lt_of_mem hmem)

/-- The event-handler drain loop reaches the buffer-empty sentinel
within one call more than the number of software-held receive
descriptors. -/
theorem mimxrt1160Eth2DrainLoop_reaches_empty
    (rxBufferCount rxBufferSize : Nat) (m : Nat) :
    ∀ s : EnetState, s.rxBufferIndex < rxBufferCount →
      enetHwReleasedCount rxBufferCount s ≤ m →
      (mimxrt1160Eth2DrainLoop rxBufferCount rxBufferSize (m + 1) s).2 =
        true := by
  induction m with
  | zero =>
    intro s hidx hm
    have he : (s.rxDesc s.rxBufferIndex).e = true := by
      by_contra hne
      have hmem : s.rxBufferIndex ∈
          (Finset.range rxBufferCount).filter (fun i => (s.rxDesc i).e = false) := by
        simp [Finset.mem_filter, Finset.mem_range, hidx,
          Bool.eq_false_iff.mpr hne]
      have hpos : 0 < enetHwReleasedCount rxBufferCount s :=
        Finset.card_pos.mpr ⟨_, hmem⟩
      omega
    simp [mimxrt1160Eth2DrainLoop,
      mimxrt1160Eth2ReceivePacket_of_empty rxBufferCount rxBufferSize s he]
  | succ m ih =>
    intro s hidx hm
    by_cases he : (s.rxDesc s.rxBufferIndex).e = true
    · simp [mimxrt1160Eth2DrainLoop,
        mimxrt1160Eth2ReceivePacket_of_empty rxBufferCount rxBufferSize s he]
    · have he' : (s.rxDesc s.rxBufferIndex).e = false := Bool.eq_false_iff.mpr he
      obtain ⟨d, hd, hdesc, hidx'⟩ :=
        mimxrt1160Eth2ReceivePacket_releases rxBufferCount rxBufferSize s hidx he'
      have hne :=
        mimxrt1160Eth2ReceivePacket_ne_empty rxBufferCount rxBufferSize s he'
      have hlt := enetHwReleasedCount_update_lt rxBufferCount s
        (mimxrt1160Eth2ReceivePacket rxBufferCount rxBufferSize s).2.2 d hidx
        he' hd hdesc
      rw [mimxrt1160Eth2DrainLoop, if_neg hne]
      exact ih _ hidx' (by omega)

/-- C10: every single receive poll either returns the buffer-empty
sentinel with the state untouched, or strictly decreases the number of
receive descriptors the DMA engine has handed back to software; that
count never exceeds the ring capacity; hence the event handler's drain
loop, which repeats until buffer-empty, reaches the sentinel within
that count plus one calls. -/
theorem receivePacket_progress_drain_terminates
    (rxBufferCount rxBufferSize : Nat) (s : EnetState)
    (hidx : s.rxBufferIndex < rxBufferCount) :
    (((mimxrt1160Eth2ReceivePacket rxBufferCount rxBufferSize s).1 =
        error_t.ERROR_BUFFER_EMPTY ∧
      (mimxrt1160Eth2ReceivePacket rxBufferCount rxBufferSize s).2.2 = s) ∨
      (enetHwReleasedCount rxBufferCount
          (mimxrt1160Eth2ReceivePacket rxBufferCount rxBufferSize s).2.2 <
        enetHwReleasedCount rxBufferCount s)) ∧
    enetHwReleasedCount rxBufferCount s ≤ rxBufferCount ∧
    (mimxrt1160Eth2DrainLoop rxBufferCount rxBufferSize
      (enetHwReleasedCount rxBufferCount s + 1) s).2 = true := by
  refine ⟨?_, ?_, ?_⟩
  · by_cases he : (s.rxDesc s.rxBufferIndex).e = true
    · left
      rw [mimxrt1160Eth2ReceivePacket_of_empty rxBufferCount rxBufferSize s he]
      exact ⟨rfl, rfl⟩
    · right
      have he' : (s.rxDesc s.rxBufferIndex).e = false := Bool.eq_false_iff.mpr he
      obtain ⟨d, hd, hdesc, _⟩ :=
        mimxrt1160Eth2ReceivePacket_releases rxBufferCount rxBufferSize s hidx he'
      exact enetHwReleasedCount_update_lt rxBufferCount s _ d hidx he' hd hdesc
  · calc enetHwReleasedCount rxBufferCount s ≤ (Finset.range rxBufferCount).card :=
      Finset.card_filter_le _ _
    _ = rxBufferCount := Finset.card_range rxBufferCount
  · exact mimxrt1160Eth2DrainLoop_reaches_empty rxBufferCount rxBufferSize _ s
      hidx le_rfl

/-- Witness for C10 on a 2-descriptor ring with one completed
descriptor. -/
theorem receivePacket_progress_drain_terminates_witness :
    (((mimxrt1160Eth2ReceivePacket 2 8 enetRxErrorState).1 =
        error_t.ERROR_BUFFER_EMPTY ∧
      (mimxrt1160Eth2ReceivePacket 2 8 enetRxErrorState).2.2 =
        enetRxErrorState) ∨
      (enetHwReleasedCount 2
          (mimxrt1160Eth2ReceivePacket 2 8 enetRxErrorState).2.2 <
        enetHwReleasedCount 2 enetRxErrorState)) ∧
    (mimxrt1160Eth2DrainLoop 2 8
      (enetHwReleasedCount 2 enetRxErrorState + 1) enetRxErrorState).2 = true :=
  ⟨(receivePacket_progress_drain_terminates 2 8 enetRxErrorState (by decide)).1,
   (receivePacket_progress_drain_terminates 2 8 enetRxErrorState
      (by decide)).2.2⟩

theorem xor_shiftRight (a b n : Nat) :
    (a ^^^ b) >>> n = (a >>> n) ^^^ (b >>> n) := by
  apply Nat.eq_of_testBit_eq
  intro i
  simp [Nat.testBit_shiftRight, Nat.testBit_xor]

theorem xor_left_comm (x y z : Nat) : x ^^^ (y ^^^ z) = y ^^^ (x ^^^ z) := by
  rw [← Nat.xor_assoc, Nat.xor_comm x y, Nat.xor_assoc]

/-- One code round on an accumulator still carrying the XOR-ed-in byte
equals one reference bit step on the clean accumulator, with the rest
of the byte riding along one position lower. -/
theorem crc32Round_xor (c b : Nat) :
    crc32Round (c ^^^ b) = crc32SpecBitStep c (b.testBit 0) ^^^ (b >>> 1) := by
  rw [crc32Round, crc32SpecBitStep]
  rcases Nat.mod_two_eq_zero_or_one c with hc | hc <;>
    rcases Nat.mod_two_eq_zero_or_one b with hb | hb <;>
      simp [Nat.and_one_is_mod, Nat.xor_mod_two_eq, Nat.testBit_zero, hc, hb,
        Nat.add_mod, xor_shiftRight, Nat.xor_assoc, Nat.xor_comm,
        xor_left_comm]

/-- After `k` code rounds the accumulator equals the reference
accumulator after the first `k` bits, XOR-ed with the not yet processed
high bits of the byte. -/
theorem crc32_rounds_eq (k c b : Nat) :
    (List.range k).foldl (fun c _ => crc32Round c) (c ^^^ b) =
    ((List.range k).foldl (fun c i => crc32SpecBitStep c (b.testBit i)) c) ^^^
      (b >>> k) := by
  induction k generalizing c with
  | zero => simp
  | succ k ih =>
    rw [List.range_succ, List.foldl_append, List.foldl_append, ih]
    simp only [List.foldl_cons, List.foldl_nil]
    rw [crc32Round_xor]
    simp [Nat.testBit_shiftRight, ← Nat.shiftRight_add]

/-- Processing one byte of at most 8 bits by the code's inner loop
equals processing its 8 bits least-significant first by the reference
bit step. -/
theorem crc32_byte_eq (c b : Nat) (hb : b < 256) :
    (List.range 8).foldl (fun c _ => crc32Round c) (c ^^^ b) =
    (List.range 8).foldl (fun c i => crc32SpecBitStep c (b.testBit i)) c := by
  rw [crc32_rounds_eq]
  have h8 : b >>> 8 = 0 := by
    rw [Nat.shiftRight_eq_div_pow]
    omega
  rw [h8, Nat.xor_zero]

theorem crc32_foldl_eq (data : List Nat) :
    ∀ acc, (∀ b ∈ data, b < 256) →
      data.foldl
        (fun crc p =>
          (List.range 8).foldl (fun c _ => crc32Round c) (crc ^^^ p)) acc =
      data.foldl
        (fun c b =>
          (List.range 8).foldl (fun c i => crc32SpecBitStep c (b.testBit i)) c)
        acc := by
  induction data with
  | nil =>
    intro acc h
    rfl
  | cons b bs ih =>
    intro acc h
    simp only [List.foldl_cons]
    rw [crc32_byte_eq acc b (h b (List.mem_cons_self b bs))]
    exact ih _ (fun x hx => h x (List.mem_cons_of_mem b hx))

/-- The CRC computed by `mimxrt1160Eth2CalcCrc` is the reference
CRC-32. -/
theorem calcCrc_eq_crc32Spec (data : List Nat) (h : ∀ b ∈ data, b < 256) :
    mimxrt1160Eth2CalcCrc data = crc32Spec data :=
  crc32_foldl_eq data 0xFFFFFFFF h

/-- C6: for every MAC address (any sequence of bytes), the hash-table
index derived by `mimxrt1160Eth2UpdateMacAddrFilter` is the top 6 bits
of the standard reflected CRC-32 of the address bytes (polynomial
`0xEDB88320`, initial value all-ones, each byte processed
least-significant bit first); for the fixed address
`01:00:5E:00:00:01` the index is the golden value 54 (CRC
`0xD9B4C5FE`). -/
theorem calcCrc_hash_index_spec (addr : List Nat) (h : ∀ b ∈ addr, b < 256) :
    mimxrt1160Eth2HashIndex addr = (crc32Spec addr >>> 26) &&& 0x3F ∧
    mimxrt1160Eth2HashIndex [0x01, 0x00, 0x5E, 0x00, 0x00, 0x01] = 54 ∧
    mimxrt1160Eth2CalcCrc [0x01, 0x00, 0x5E, 0x00, 0x00, 0x01] = 0xD9B4C5FE := by
  set_option maxRecDepth 20000 in
  refine ⟨?_, by decide, by decide⟩
  rw [mimxrt1160Eth2HashIndex, calcCrc_eq_crc32Spec addr h]

/-- Witness for C6 at the golden multicast address. -/
theorem calcCrc_hash_index_spec_witness :
    mimxrt1160Eth2HashIndex [0x01, 0x00, 0x5E, 0x00, 0x00, 0x01] =
      (crc32Spec [0x01, 0x00, 0x5E, 0x00, 0x00, 0x01] >>> 26) &&& 0x3F ∧
    mimxrt1160Eth2HashIndex [0x01, 0x00, 0x5E, 0x00, 0x00, 0x01] = 54 ∧
    mimxrt1160Eth2CalcCrc [0x01, 0x00, 0x5E, 0x00, 0x00, 0x01] = 0xD9B4C5FE :=
  calcCrc_hash_index_spec [0x01, 0x00, 0x5E, 0x00, 0x00, 0x01] (by decide)

theorem take_take_append {α : Type} (n m : Nat) (A B : List α)
    (hnm : n ≤ m) (hA : n ≤ A.length) :
    (A.take m ++ B).take n = A.take n := by
  have h1 : n ≤ (A.take m).length := by
    rw [List.length_take]
    exact Nat.le_min.mpr ⟨hnm, hA⟩
  rw [List.take_append_of_le_length h1, List.take_take, min_eq_left hnm]

/-- The first `packet.length` bytes of a ring buffer written by the
4-byte-aligned copy are the packet bytes. -/
theorem take_align4_copy {α : Type} (packet rest old : List α) :
    ((packet ++ rest).take (align4 packet.length) ++ old).take packet.length =
      packet := by
  rw [take_take_append packet.length (align4 packet.length) (packet ++ rest) old
    (le_align4 _) (by rw [List.length_append]; omega)]
  exact List.take_left packet rest

theorem and_mask_eq_of_lt {n k : Nat} (h : n < 2 ^ k) : n &&& (2 ^ k - 1) = n := by
  rw [Nat.and_pow_two_sub_one_eq_mod]
  exact Nat.mod_eq_of_lt h

/-- A successful send reports `NO_ERROR` and leaves the packet bytes at
the front of the transmit ring buffer at the old cursor (ENET). -/
theorem mimxrt1160Eth2SendPacket_writes_frame
    (txBufferCount txBufferSize : Nat) (packet : List Nat) (s : EnetState)
    (hlen : packet.length ≤ txBufferSize)
    (hfree : (s.txDesc s.txBufferIndex).r = false) :
    (mimxrt1160Eth2SendPacket txBufferCount txBufferSize packet s).1 =
      error_t.NO_ERROR ∧
    ((mimxrt1160Eth2SendPacket txBufferCount txBufferSize packet s).2.txBuffer
        s.txBufferIndex).take packet.length = packet := by
  by_cases hw : s.txBufferIndex < txBufferCount - 1 <;> constructor
  · simp [mimxrt1160Eth2SendPacket, Nat.not_lt.mpr hlen, hfree, hw,
      apply_ite (f := Prod.fst)]
  · simp only [mimxrt1160Eth2SendPacket, Nat.not_lt.mpr hlen, hfree, hw,
      if_true, if_false, ite_true, ite_false, if_neg, if_pos, gt_iff_lt,
      Bool.false_eq_true, not_false_eq_true]
    split <;> simp [Function.update_apply, take_align4_copy]
  · simp [mimxrt1160Eth2SendPacket, Nat.not_lt.mpr hlen, hfree, hw,
      apply_ite (f := Prod.fst)]
  · simp only [mimxrt1160Eth2SendPacket, Nat.not_lt.mpr hlen, hfree, hw,
      if_true, if_false, ite_true, ite_false, gt_iff_lt,
      Bool.false_eq_true, not_false_eq_true]
    split <;> simp [Function.update_apply, take_align4_copy]

/-- A successful send reports `NO_ERROR` and leaves the packet bytes at
the front of the transmit ring buffer at the old cursor (GMAC). -/
theorem samv71EthSendPacket_writes_frame
    (txBufferCount txBufferSize : Nat) (packet : List Nat) (s : Samv71State)
    (hlen : packet.length ≤ txBufferSize)
    (hfree : (s.txDesc s.txBufferIndex).used = true) :
    (samv71EthSendPacket txBufferCount txBufferSize packet s).1 =
      error_t.NO_ERROR ∧
    ((samv71EthSendPacket txBufferCount txBufferSize packet s).2.txBuffer
        s.txBufferIndex).take packet.length = packet := by
  by_cases hw : s.txBufferIndex < txBufferCount - 1 <;> constructor
  · simp [samv71EthSendPacket, Nat.not_lt.mpr hlen, hfree, hw,
      apply_ite (f := Prod.fst)]
  · simp only [samv71EthSendPacket, Nat.not_lt.mpr hlen, hfree, hw,
      if_true, if_false, ite_true, ite_false, gt_iff_lt,
      Bool.false_eq_true, Bool.true_eq_false, not_false_eq_true,
      not_true_eq_false]
    split <;> simp [Function.update_apply, take_align4_copy]
  · simp [samv71EthSendPacket, Nat.not_lt.mpr hlen, hfree, hw,
      apply_ite (f := Prod.fst)]
  · simp only [samv71EthSendPacket, Nat.not_lt.mpr hlen, hfree, hw,
      if_true, if_false, ite_true, ite_false, gt_iff_lt,
      Bool.false_eq_true, Bool.true_eq_false, not_false_eq_true,
      not_true_eq_false]
    split <;> simp [Function.update_apply, take_align4_copy]

/-- A receive poll on a completed, error-free, single-buffer descriptor
delivers the first `n` declared bytes of the ring buffer at the cursor
(ENET). -/
theorem mimxrt1160Eth2ReceivePacket_delivers
    (rxBufferCount rxBufferSize : Nat) (s : EnetState) (n : Nat)
    (he : (s.rxDesc s.rxBufferIndex).e = false)
    (hl : (s.rxDesc s.rxBufferIndex).l = true)
    (hlg : (s.rxDesc s.rxBufferIndex).lg = false)
    (hno : (s.rxDesc s.rxBufferIndex).no = false)
    (hcr : (s.rxDesc s.rxBufferIndex).cr = false)
    (hov : (s.rxDesc s.rxBufferIndex).ov = false)
    (htr : (s.rxDesc s.rxBufferIndex).tr = false)
    (hn : (s.rxDesc s.rxBufferIndex).dataLength = n)
    (hn16 : n < 65536)
    (hnsize : n ≤ rxBufferSize)
    (hbuf : n ≤ (s.rxBuffer s.rxBufferIndex).length) :
    (mimxrt1160Eth2ReceivePacket rxBufferCount rxBufferSize s).1 =
      error_t.NO_ERROR ∧
    (mimxrt1160Eth2ReceivePacket rxBufferCount rxBufferSize s).2.1 =
      some ((s.rxBuffer s.rxBufferIndex).take n) := by
  have hmask : n &&& ENET_RBD0_DATA_LENGTH = n := by
    have h := and_mask_eq_of_lt (k := 16) hn16
    norm_num at h
    rw [ENET_RBD0_DATA_LENGTH]
    exact h
  have hmin : min n rxBufferSize = n := min_eq_left hnsize
  by_cases hw : s.rxBufferIndex < rxBufferCount - 1 <;>
    constructor <;>
      simp [mimxrt1160Eth2ReceivePacket, he, hl, hlg, hno, hcr, hov, htr, hn,
        hmask, hmin, hw, take_take_append n (align4 n) _ _ (le_align4 n) hbuf]

/-- A receive poll on a ring whose cursor descriptor was handed back by
the DMA engine holding a complete frame (start- and end-of-frame on the
same descriptor) delivers the first `n` declared bytes of the ring
buffer at the cursor (GMAC). -/
theorem samv71EthReceivePacket_delivers_single
    (rxBufferCount rxBufferSize : Nat) (s : Samv71State) (n : Nat)
    (hidx : s.rxBufferIndex < rxBufferCount)
    (hown : (s.rxDesc s.rxBufferIndex).own = true)
    (hsof : (s.rxDesc s.rxBufferIndex).sof = true)
    (heof : (s.rxDesc s.rxBufferIndex).eof = true)
    (hlen : (s.rxDesc s.rxBufferIndex).length = n)
    (h1 : 1 ≤ n)
    (hmax : n ≤ ETH_MAX_FRAME_SIZE)
    (hsize : n ≤ rxBufferSize)
    (hbuf : n ≤ (s.rxBuffer s.rxBufferIndex).length) :
    (samv71EthReceivePacket rxBufferCount rxBufferSize s).1 =
      error_t.NO_ERROR ∧
    (samv71EthReceivePacket rxBufferCount rxBufferSize s).2.1 =
      some ((s.rxBuffer s.rxBufferIndex).take n) := by
  obtain ⟨m, rfl⟩ : ∃ m, rxBufferCount = m + 1 := ⟨rxBufferCount - 1, by omega⟩
  have hmask : n &&& GMAC_RX_LENGTH = n := by
    have hlt : n < 2 ^ 13 := by
      rw [ETH_MAX_FRAME_SIZE] at hmax
      omega
    have h := and_mask_eq_of_lt hlt
    norm_num at h
    rw [GMAC_RX_LENGTH]
    exact h
  have hj0 : ¬ m + 1 ≤ s.rxBufferIndex := by omega
  have hscan : samv71EthRxScan s.rxDesc (m + 1) s.rxBufferIndex =
      ⟨0, 0, 0, n⟩ := by
    rw [samv71EthRxScan, samv71EthRxScanGo]
    simp [hj0, hown, hsof, heof, hlen, hmask, UINT_MAX,
      min_eq_left hmax]
  have h0 : 0 < n := h1
  constructor <;>
    simp [samv71EthReceivePacket, hscan, UINT_MAX, samv71EthRxProcessGo,
      samv71EthRxProcessStep, min_eq_left hsize, h0,
      take_take_append n (align4 n) _ _ (le_align4 n) hbuf]

/-- C1: for every frame with length in `[1, bufferSize]`, if the send
path accepts the frame (cursor descriptor software-owned) and a mock
DMA engine then presents the bytes of the transmitted ring buffer as a
completed receive descriptor with the same declared length (ENET: `E`
clear, `L` set, no errors; GMAC: ownership handed to software with SOF
and EOF on one descriptor), the subsequent receive poll succeeds and
delivers exactly the original frame, for both drivers. -/
theorem sendPacket_mock_dma_receive_roundtrip
    (countE sizeE : Nat) (packetE : List Nat) (sE s2E : EnetState)
    (countG sizeG : Nat) (packetG : List Nat) (sG s2G : Samv71State)
    (hE1 : 1 ≤ packetE.length)
    (hE2 : packetE.length ≤ sizeE)
    (hE3 : sizeE < 65536)
    (hEfree : (sE.txDesc sE.txBufferIndex).r = false)
    (hEe : (s2E.rxDesc s2E.rxBufferIndex).e = false)
    (hEl : (s2E.rxDesc s2E.rxBufferIndex).l = true)
    (hElg : (s2E.rxDesc s2E.rxBufferIndex).lg = false)
    (hEno : (s2E.rxDesc s2E.rxBufferIndex).no = false)
    (hEcr : (s2E.rxDesc s2E.rxBufferIndex).cr = false)
    (hEov : (s2E.rxDesc s2E.rxBufferIndex).ov = false)
    (hEtr : (s2E.rxDesc s2E.rxBufferIndex).tr = false)
    (hElen : (s2E.rxDesc s2E.rxBufferIndex).dataLength = packetE.length)
    (hEbuf : packetE.length ≤ (s2E.rxBuffer s2E.rxBufferIndex).length)
    (hEbytes : (s2E.rxBuffer s2E.rxBufferIndex).take packetE.length =
      ((mimxrt1160Eth2SendPacket countE sizeE packetE sE).2.txBuffer
        sE.txBufferIndex).take packetE.length)
    (hG1 : 1 ≤ packetG.length)
    (hG2 : packetG.length ≤ sizeG)
    (hG3 : sizeG ≤ ETH_MAX_FRAME_SIZE)
    (hGfree : (sG.txDesc sG.txBufferIndex).used = true)
    (hGidx : s2G.rxBufferIndex < countG)
    (hGown : (s2G.rxDesc s2G.rxBufferIndex).own = true)
    (hGsof : (s2G.rxDesc s2G.rxBufferIndex).sof = true)
    (hGeof : (s2G.rxDesc s2G.rxBufferIndex).eof = true)
    (hGlen : (s2G.rxDesc s2G.rxBufferIndex).length = packetG.length)
    (hGbuf : packetG.length ≤ (s2G.rxBuffer s2G.rxBufferIndex).length)
    (hGbytes : (s2G.rxBuffer s2G.rxBufferIndex).take packetG.length =
      ((samv71EthSendPacket countG sizeG packetG sG).2.txBuffer
        sG.txBufferIndex).take packetG.length) :
    (mimxrt1160Eth2SendPacket countE sizeE packetE sE).1 =
      error_t.NO_ERROR ∧
    (mimxrt1160Eth2ReceivePacket countE sizeE s2E).1 = error_t.NO_ERROR ∧
    (mimxrt1160Eth2ReceivePacket countE sizeE s2E).2.1 = some packetE ∧
    (samv71EthSendPacket countG sizeG packetG sG).1 = error_t.NO_ERROR ∧
    (samv71EthReceivePacket countG sizeG s2G).1 = error_t.NO_ERROR ∧
    (samv71EthReceivePacket countG sizeG s2G).2.1 = some packetG := by
  obtain ⟨hs1E, hwE⟩ :=
    mimxrt1160Eth2SendPacket_writes_frame countE sizeE packetE sE hE2 hEfree
  obtain ⟨hr1E, hr2E⟩ :=
    mimxrt1160Eth2ReceivePacket_delivers countE sizeE s2E packetE.length hEe
      hEl hElg hEno hEcr hEov hEtr hElen (by omega) hE2 hEbuf
  obtain ⟨hs1G, hwG⟩ :=
    samv71EthSendPacket_writes_frame countG sizeG packetG sG hG2 hGfree
  obtain ⟨hr1G, hr2G⟩ :=
    samv71EthReceivePacket_delivers_single countG sizeG s2G packetG.length
      hGidx hGown hGsof hGeof hGlen hG1 (le_trans hG2 hG3) hG2 hGbuf
  refine ⟨hs1E, hr1E, ?_, hs1G, hr1G, ?_⟩
  · rw [hr2E, hEbytes, hwE]
  · rw [hr2G, hGbytes, hwG]

/-- Witness for C1: the frame `[1, 2, 3]` round-trips through both
drivers on 2-descriptor rings with 8-byte buffers. -/
theorem sendPacket_mock_dma_receive_roundtrip_witness :
    (mimxrt1160Eth2SendPacket 2 8 [1, 2, 3] enetSampleState).1 =
      error_t.NO_ERROR ∧
    (mimxrt1160Eth2ReceivePacket 2 8 enetC1MockState).1 =
      error_t.NO_ERROR ∧
    (mimxrt1160Eth2ReceivePacket 2 8 enetC1MockState).2.1 = some [1, 2, 3] ∧
    (samv71EthSendPacket 2 8 [1, 2, 3] samv71SampleState).1 =
      error_t.NO_ERROR ∧
    (samv71EthReceivePacket 2 8 samv71C1MockState).1 = error_t.NO_ERROR ∧
    (samv71EthReceivePacket 2 8 samv71C1MockState).2.1 = some [1, 2, 3] :=
  sendPacket_mock_dma_receive_roundtrip 2 8 [1, 2, 3] enetSampleState
    enetC1MockState 2 8 [1, 2, 3] samv71SampleState samv71C1MockState
    (by decide) (by decide) (by decide) (by decide) (by decide) (by decide)
    (by decide) (by decide) (by decide) (by decide) (by decide) (by decide)
    (by decide) (by decide) (by decide) (by decide) (by decide) (by decide)
    (by decide) (by decide) (by decide) (by decide) (by decide) (by decide)
    (by decide)

theorem mod_of_lt_two_mul {a count : Nat} (h : a < 2 * count) :
    a % count = if a < count then a else a - count := by
  split
  · exact Nat.mod_eq_of_lt (by assumption)
  · have h2 : a - count < count := by omega
    rw [Nat.mod_eq_sub_mod (by omega), Nat.mod_eq_of_lt h2]

theorem add_mod_ne (count idx s : Nat) (hidx : idx < count) (h0 : 0 < s)
    (hs : s < count) : (idx + s) % count ≠ idx := by
  have h2 : idx + s < 2 * count := by omega
  rw [mod_of_lt_two_mul h2]
  split <;> omega

/-- Characterization of `gmacReleaseRun`: the cursor advances by `fuel`
modulo the capacity, the `fuel` descriptors from the starting cursor
lose their ownership bit, and every other descriptor is untouched. -/
theorem gmacReleaseRun_spec (count : Nat) :
    ∀ (fuel : Nat) (rxDesc : Nat → GmacRxDesc) (idx : Nat),
      idx < count → fuel ≤ count →
      ((gmacReleaseRun count fuel rxDesc idx).2 = (idx + fuel) % count ∧
       (∀ t, t < fuel →
         (gmacReleaseRun count fuel rxDesc idx).1 ((idx + t) % count) =
           { rxDesc ((idx + t) % count) with own := false }) ∧
       (∀ q, (∀ t, t < fuel → q ≠ (idx + t) % count) →
         (gmacReleaseRun count fuel rxDesc idx).1 q = rxDesc q)) := by
  intro fuel
  induction fuel with
  | zero =>
    intro rxDesc idx hidx _
    refine ⟨?_, by omega, fun q _ => rfl⟩
    simp [gmacReleaseRun, Nat.mod_eq_of_lt hidx]
  | succ fuel ih =>
    intro rxDesc idx hidx hfuel
    have hidx' : (if idx + 1 ≥ count then 0 else idx + 1) < count := by
      split <;> omega
    have hcur : (if idx + 1 ≥ count then 0 else idx + 1) = (idx + 1) % count := by
      have h2 : idx + 1 < 2 * count := by omega
      rw [mod_of_lt_two_mul h2]
      split <;> split <;> omega
    obtain ⟨ih1, ih2, ih3⟩ := ih
      (Function.update rxDesc idx { rxDesc idx with own := false })
      (if idx + 1 ≥ count then 0 else idx + 1) hidx' (by omega)
    have hshift : ∀ t : Nat,
        ((if idx + 1 ≥ count then 0 else idx + 1) + t) % count =
        (idx + (t + 1)) % count := by
      intro t
      rw [hcur, Nat.mod_add_mod]
      congr 1
      omega
    refine ⟨?_, ?_, ?_⟩
    · simp only [gmacReleaseRun]
      rw [ih1, hshift fuel]
    · intro t ht
      simp only [gmacReleaseRun]
      by_cases ht0 : t = 0
      · subst ht0
        have huntouched : ∀ u, u < fuel →
            idx ≠ ((if idx + 1 ≥ count then 0 else idx + 1) + u) % count := by
          intro u hu
          rw [hshift u]
          exact Ne.symm (add_mod_ne count idx (u + 1) hidx (by omega) (by omega))
        have hm : (idx + 0) % count = idx := by
          simp [Nat.mod_eq_of_lt hidx]
        rw [hm, ih3 idx huntouched, Function.update_same]
      · obtain ⟨t', rfl⟩ : ∃ t', t = t' + 1 := ⟨t - 1, by omega⟩
        have hpos := hshift t'
        rw [← hpos, ih2 t' (by omega), hpos,
          Function.update_noteq
            (add_mod_ne count idx (t' + 1) hidx (by omega) (by omega))]
    · intro q hq
      have hq0 : q ≠ idx := by
        have h := hq 0 (by omega)
        rwa [Nat.add_zero, Nat.mod_eq_of_lt hidx] at h
      have huntouched : ∀ u, u < fuel →
          q ≠ ((if idx + 1 ≥ count then 0 else idx + 1) + u) % count := by
        intro u hu
        rw [hshift u]
        exact hq (u + 1) (by omega)
      simp only [gmacReleaseRun]
      rw [ih3 q huntouched, Function.update_noteq hq0]

/-- When the scan found no end-of-frame, the second loop of
`samv71EthReceivePacket` copies nothing and only releases descriptors:
it is `gmacReleaseRun`. -/
theorem samv71EthRxProcessGo_no_eof (count bufSize sofIndex : Nat)
    (rxBuffer : Nat → List Nat) :
    ∀ (fuel i : Nat) (st : GmacRxLoop),
      samv71EthRxProcessGo count bufSize sofIndex UINT_MAX rxBuffer fuel i st =
        { rxDesc := (gmacReleaseRun count fuel st.rxDesc st.rxBufferIndex).1
          rxBufferIndex := (gmacReleaseRun count fuel st.rxDesc st.rxBufferIndex).2
          temp := st.temp
          length := st.length
          size := st.size } := by
  intro fuel
  induction fuel with
  | zero =>
    intro i st
    rfl
  | succ fuel ih =>
    intro i st
    rw [samv71EthRxProcessGo, ih]
    simp only [gmacReleaseRun, samv71EthRxProcessStep]
    simp

/-- Bounds on the scan result: the final loop counter is at most the
ring capacity and a found start-of-frame index lies inside the ring. -/
theorem samv71EthRxScanGo_bounds (rxDesc : Nat → GmacRxDesc)
    (count rxIndex : Nat) (hcount : count < UINT_MAX) :
    ∀ (remaining i sofIndex : Nat),
      i + remaining = count → (sofIndex = UINT_MAX ∨ sofIndex < i) →
      ((samv71EthRxScanGo rxDesc count rxIndex remaining i sofIndex).i ≤
          count ∧
        ((samv71EthRxScanGo rxDesc count rxIndex remaining i
            sofIndex).sofIndex = UINT_MAX ∨
          (samv71EthRxScanGo rxDesc count rxIndex remaining i
            sofIndex).sofIndex < count)) := by
  intro remaining
  induction remaining with
  | zero =>
    intro i sofIndex hi hsof
    rw [samv71EthRxScanGo]
    refine ⟨(by omega : i ≤ count), ?_⟩
    rcases hsof with h | h
    · exact Or.inl h
    · exact Or.inr (show sofIndex < count by omega)
  | succ remaining ih =>
    intro i sofIndex hi hsof
    rw [samv71EthRxScanGo]
    by_cases hown : (rxDesc (if rxIndex + i ≥ count then rxIndex + i - count
        else rxIndex + i)).own = false
    · rw [if_pos hown]
      refine ⟨(show i ≤ count by omega), ?_⟩
      rcases hsof with h | h
      · exact Or.inl h
      · exact Or.inr (show sofIndex < count by omega)
    · rw [if_neg hown]
      have hinv : (if (rxDesc (if rxIndex + i ≥ count then rxIndex + i - count
            else rxIndex + i)).sof = true then i else sofIndex) = UINT_MAX ∨
          (if (rxDesc (if rxIndex + i ≥ count then rxIndex + i - count
            else rxIndex + i)).sof = true then i else sofIndex) < i + 1 := by
        by_cases hsf : (rxDesc (if rxIndex + i ≥ count then
            rxIndex + i - count else rxIndex + i)).sof = true
        · rw [if_pos hsf]
          exact Or.inr (by omega)
        · rw [if_neg hsf]
          rcases hsof with h | h
          · exact Or.inl h
          · exact Or.inr (by omega)
      by_cases heof : (rxDesc (if rxIndex + i ≥ count then rxIndex + i - count
            else rxIndex + i)).eof = true ∧
          (if (rxDesc (if rxIndex + i ≥ count then rxIndex + i - count
            else rxIndex + i)).sof = true then i else sofIndex) ≠ UINT_MAX
      · rw [if_pos heof]
        refine ⟨(show i ≤ count by omega), ?_⟩
        rcases hinv with h | h
        · exact Or.inl h
        · exact Or.inr (show (if (rxDesc (if rxIndex + i ≥ count then
            rxIndex + i - count else rxIndex + i)).sof = true then i
            else sofIndex) < count by omega)
      · rw [if_neg heof]
        refine ih (i + 1) _ (by omega) ?_
        rcases hinv with h | h
        · exact Or.inl h
        · exact Or.inr h

/-- C7: when the scan of `samv71EthReceivePacket` over the descriptors
the DMA engine has handed back finds no complete SOF→EOF run
(`eofIndex` still `UINT_MAX`), the poll returns the buffer-empty
sentinel and delivers nothing; writing `r` for the number of entries
the code then processes (the pending start-of-frame position when one
was found, otherwise the number of scanned descriptors), exactly the
`r` descriptors from the cursor are released back to the DMA engine,
every other descriptor — in particular the pending fragment from the
start-of-frame on — is untouched, and the cursor advances by `r`
modulo the capacity. -/
theorem samv71EthReceivePacket_no_complete_run
    (rxBufferCount rxBufferSize : Nat) (s : Samv71State)
    (hcount : rxBufferCount < UINT_MAX)
    (hidx : s.rxBufferIndex < rxBufferCount)
    (hne : (samv71EthRxScan s.rxDesc rxBufferCount s.rxBufferIndex).eofIndex =
      UINT_MAX) :
    (samv71EthReceivePacket rxBufferCount rxBufferSize s).1 =
      error_t.ERROR_BUFFER_EMPTY ∧
    (samv71EthReceivePacket rxBufferCount rxBufferSize s).2.1 = none ∧
    (samv71EthReceivePacket rxBufferCount rxBufferSize s).2.2.tempRx =
      s.tempRx ∧
    (samv71EthReceivePacket rxBufferCount rxBufferSize s).2.2.rxBufferIndex =
      (s.rxBufferIndex +
        (if (samv71EthRxScan s.rxDesc rxBufferCount
              s.rxBufferIndex).sofIndex ≠ UINT_MAX then
          (samv71EthRxScan s.rxDesc rxBufferCount s.rxBufferIndex).sofIndex
        else
          (samv71EthRxScan s.rxDesc rxBufferCount s.rxBufferIndex).i)) %
        rxBufferCount ∧
    (∀ t, t < (if (samv71EthRxScan s.rxDesc rxBufferCount
          s.rxBufferIndex).sofIndex ≠ UINT_MAX then
        (samv71EthRxScan s.rxDesc rxBufferCount s.rxBufferIndex).sofIndex
      else (samv71EthRxScan s.rxDesc rxBufferCount s.rxBufferIndex).i) →
      (samv71EthReceivePacket rxBufferCount rxBufferSize s).2.2.rxDesc
          ((s.rxBufferIndex + t) % rxBufferCount) =
        { s.rxDesc ((s.rxBufferIndex + t) % rxBufferCount) with
          own := false }) ∧
    (∀ q, (∀ t, t < (if (samv71EthRxScan s.rxDesc rxBufferCount
            s.rxBufferIndex).sofIndex ≠ UINT_MAX then
          (samv71EthRxScan s.rxDesc rxBufferCount s.rxBufferIndex).sofIndex
        else (samv71EthRxScan s.rxDesc rxBufferCount s.rxBufferIndex).i) →
          q ≠ (s.rxBufferIndex + t) % rxBufferCount) →
      (samv71EthReceivePacket rxBufferCount rxBufferSize s).2.2.rxDesc q =
        s.rxDesc q) := by
  have hb : (samv71EthRxScan s.rxDesc rxBufferCount s.rxBufferIndex).i ≤
        rxBufferCount ∧
      ((samv71EthRxScan s.rxDesc rxBufferCount
          s.rxBufferIndex).sofIndex = UINT_MAX ∨
        (samv71EthRxScan s.rxDesc rxBufferCount s.rxBufferIndex).sofIndex <
          rxBufferCount) :=
    samv71EthRxScanGo_bounds s.rxDesc rxBufferCount s.rxBufferIndex hcount
      rxBufferCount 0 UINT_MAX (by omega) (Or.inl rfl)
  have hRle : (if (samv71EthRxScan s.rxDesc rxBufferCount
        s.rxBufferIndex).sofIndex ≠ UINT_MAX then
      (samv71EthRxScan s.rxDesc rxBufferCount s.rxBufferIndex).sofIndex
    else (samv71EthRxScan s.rxDesc rxBufferCount s.rxBufferIndex).i) ≤
      rxBufferCount := by
    rcases hb.2 with h | h
    · rw [if_neg (by simp [h])]
      exact hb.1
    · split
      · omega
      · exact hb.1
  obtain ⟨hrel1, hrel2, hrel3⟩ :=
    gmacReleaseRun_spec rxBufferCount
      (if (samv71EthRxScan s.rxDesc rxBufferCount
          s.rxBufferIndex).sofIndex ≠ UINT_MAX then
        (samv71EthRxScan s.rxDesc rxBufferCount s.rxBufferIndex).sofIndex
      else (samv71EthRxScan s.rxDesc rxBufferCount s.rxBufferIndex).i)
      s.rxDesc s.rxBufferIndex hidx hRle
  have hst := samv71EthRxProcessGo_no_eof rxBufferCount rxBufferSize
    (samv71EthRxScan s.rxDesc rxBufferCount s.rxBufferIndex).sofIndex
    s.rxBuffer
    (if (samv71EthRxScan s.rxDesc rxBufferCount
        s.rxBufferIndex).sofIndex ≠ UINT_MAX then
      (samv71EthRxScan s.rxDesc rxBufferCount s.rxBufferIndex).sofIndex
    else (samv71EthRxScan s.rxDesc rxBufferCount s.rxBufferIndex).i) 0
    ⟨s.rxDesc, s.rxBufferIndex, s.tempRx, 0,
      (samv71EthRxScan s.rxDesc rxBufferCount s.rxBufferIndex).size⟩
  have hrecv : samv71EthReceivePacket rxBufferCount rxBufferSize s =
      (error_t.ERROR_BUFFER_EMPTY, none,
        { s with
          rxDesc := (gmacReleaseRun rxBufferCount
            (if (samv71EthRxScan s.rxDesc rxBufferCount
                s.rxBufferIndex).sofIndex ≠ UINT_MAX then
              (samv71EthRxScan s.rxDesc rxBufferCount
                s.rxBufferIndex).sofIndex
            else (samv71EthRxScan s.rxDesc rxBufferCount s.rxBufferIndex).i)
            s.rxDesc s.rxBufferIndex).1
          rxBufferIndex := (gmacReleaseRun rxBufferCount
            (if (samv71EthRxScan s.rxDesc rxBufferCount
                s.rxBufferIndex).sofIndex ≠ UINT_MAX then
              (samv71EthRxScan s.rxDesc rxBufferCount
                s.rxBufferIndex).sofIndex
            else (samv71EthRxScan s.rxDesc rxBufferCount s.rxBufferIndex).i)
            s.rxDesc s.rxBufferIndex).2 }) := by
    have hst' := hst
    simp only [ne_eq, ite_not] at hst'
    simp [samv71EthReceivePacket, hne]
    simp only [hst']
    simp
  refine ⟨by rw [hrecv], by rw [hrecv], by rw [hrecv], ?_, ?_, ?_⟩
  · rw [hrecv]
    exact hrel1
  · intro t ht
    rw [hrecv]
    exact hrel2 t ht
  · intro q hq
    rw [hrecv]
    exact hrel3 q hq

/-- Witness for C7 on a 2-descriptor ring: a released stray fragment at
the cursor followed by a pending start-of-frame; the poll returns
buffer-empty, releases only the stray descriptor and leaves the pending
one owned by software. -/
theorem samv71EthReceivePacket_no_complete_run_witness :
    (samv71EthReceivePacket 2 8 samv71PendingState).1 =
      error_t.ERROR_BUFFER_EMPTY ∧
    (samv71EthReceivePacket 2 8 samv71PendingState).2.1 = none ∧
    (samv71EthReceivePacket 2 8 samv71PendingState).2.2.rxDesc
        ((samv71PendingState.rxBufferIndex + 0) % 2) =
      { samv71PendingState.rxDesc
          ((samv71PendingState.rxBufferIndex + 0) % 2) with own := false } ∧
    (samv71EthReceivePacket 2 8 samv71PendingState).2.2.rxDesc 1 =
      samv71PendingState.rxDesc 1 :=
  have h := samv71EthReceivePacket_no_complete_run 2 8 samv71PendingState
    (by decide) (by decide) (by decide)
  ⟨h.1, h.2.1, h.2.2.2.2.1 0 (by decide), h.2.2.2.2.2 1 (by decide)⟩

theorem gmacHashTableSet_j (st : GmacFilterState) (k : Nat) :
    (gmacHashTableSet st k).j = st.j := by
  unfold gmacHashTableSet
  split <;> rfl

theorem gmacHashTableSet_slots (st : GmacFilterState) (k : Nat) :
    (gmacHashTableSet st k).unicastMacAddr = st.unicastMacAddr := by
  unfold gmacHashTableSet
  split <;> rfl

theorem gmacFilterBit_set_self (st : GmacFilterState) (k : Nat) :
    gmacFilterBit (gmacHashTableSet st k) k = true := by
  unfold gmacFilterBit gmacHashTableSet hashTableBit
  by_cases h : k / 32 = 0 <;>
    simp [h, Nat.testBit_or, Nat.shiftLeft_eq, Nat.testBit_two_pow_self]

theorem gmacFilterBit_set_mono (st : GmacFilterState) (k b : Nat)
    (h : gmacFilterBit st b = true) :
    gmacFilterBit (gmacHashTableSet st k) b = true := by
  unfold gmacFilterBit hashTableBit at h
  unfold gmacFilterBit gmacHashTableSet hashTableBit
  by_cases hk : k / 32 = 0 <;> by_cases hb : b / 32 = 0 <;>
    simp only [hk, hb, if_true, if_false, ite_true, ite_false] at h ⊢ <;>
      simp_all [Nat.testBit_or]

/-- Invariant of the entry loop of `samv71EthUpdateMacAddrFilter`,
stated for the fold from an arbitrary intermediate state: the unicast
counter grows by the number of active unicast entries; hash bits are
only ever added; exact-match slots below the incoming counter are
preserved; the slots from the counter up to 3 receive the active
unicast addresses in order; every active multicast address is hashed;
and every active unicast address whose overall position reaches 3 falls
back to the hash table. -/
theorem samv71EthFilterFold (es : List MacFilterEntry) :
    ∀ st : GmacFilterState,
      (es.foldl samv71EthFilterStep st).j =
        st.j + (activeUnicastAddrs es).length ∧
      (∀ b, gmacFilterBit st b = true →
        gmacFilterBit (es.foldl samv71EthFilterStep st) b = true) ∧
      (∀ k, k < st.j →
        (es.foldl samv71EthFilterStep st).unicastMacAddr k =
          st.unicastMacAddr k) ∧
      (∀ k, st.j ≤ k → k < 3 → k - st.j < (activeUnicastAddrs es).length →
        (es.foldl samv71EthFilterStep st).unicastMacAddr k =
          (activeUnicastAddrs es).getD (k - st.j) []) ∧
      (∀ e, e ∈ es → 0 < e.refCount → macIsMulticastAddr e.addr = true →
        gmacFilterBit (es.foldl samv71EthFilterStep st)
          (samv71EthHashIndex e.addr) = true) ∧
      (∀ k, 3 ≤ st.j + k → k < (activeUnicastAddrs es).length →
        gmacFilterBit (es.foldl samv71EthFilterStep st)
          (samv71EthHashIndex ((activeUnicastAddrs es).getD k [])) =
          true) := by
  induction es with
  | nil =>
    intro st
    refine ⟨by simp [activeUnicastAddrs], fun b h => h, fun k _ => rfl,
      ?_, by simp, ?_⟩
    · intro k _ _ hk
      simp [activeUnicastAddrs] at hk
    · intro k _ hk
      simp [activeUnicastAddrs] at hk
  | cons e es ih =>
    intro st
    by_cases href : 0 < e.refCount
    · by_cases hmul : macIsMulticastAddr e.addr = true
      · have hstep : samv71EthFilterStep st e =
            gmacHashTableSet st (samv71EthHashIndex e.addr) := by
          simp [samv71EthFilterStep, href, hmul]
        have hau : activeUnicastAddrs (e :: es) = activeUnicastAddrs es := by
          simp [activeUnicastAddrs, List.filter_cons, href, hmul]
        obtain ⟨ih1, ih2, ih3, ih4, ih5, ih6⟩ :=
          ih (gmacHashTableSet st (samv71EthHashIndex e.addr))
        rw [List.foldl_cons, hstep, hau]
        refine ⟨?_, ?_, ?_, ?_, ?_, ?_⟩
        · rw [ih1, gmacHashTableSet_j]
        · intro b hb
          exact ih2 b (gmacFilterBit_set_mono st _ b hb)
        · intro k hk
          rw [ih3 k (by rw [gmacHashTableSet_j]; exact hk),
            gmacHashTableSet_slots]
        · intro k hk1 hk2 hk3
          rw [ih4 k (by rw [gmacHashTableSet_j]; exact hk1) hk2
            (by rw [gmacHashTableSet_j]; exact hk3), gmacHashTableSet_j]
        · intro f hf hfr hfm
          rcases List.mem_cons.mp hf with h | h
          · subst h
            exact ih2 _ (gmacFilterBit_set_self st _)
          · exact ih5 f h hfr hfm
        · intro k hk1 hk2
          exact ih6 k (by rw [gmacHashTableSet_j]; exact hk1) hk2
      · by_cases hlt : st.j < 3
        · have hstep : samv71EthFilterStep st e =
              { st with
                unicastMacAddr :=
                  Function.update st.unicastMacAddr st.j e.addr
                j := st.j + 1 } := by
            simp [samv71EthFilterStep, href, hmul, hlt]
          have hau : activeUnicastAddrs (e :: es) =
              e.addr :: activeUnicastAddrs es := by
            simp [activeUnicastAddrs, List.filter_cons, href, hmul]
          obtain ⟨ih1, ih2, ih3, ih4, ih5, ih6⟩ :=
            ih { st with
              unicastMacAddr := Function.update st.unicastMacAddr st.j e.addr
              j := st.j + 1 }
          rw [List.foldl_cons, hstep, hau]
          refine ⟨?_, ?_, ?_, ?_, ?_, ?_⟩
          · rw [ih1]
            simp only [List.length_cons]
            omega
          · intro b hb
            exact ih2 b hb
          · intro k hk
            rw [ih3 k (show k < st.j + 1 by omega)]
            exact Function.update_noteq (show k ≠ st.j by omega) e.addr
              st.unicastMacAddr
          · intro k hk1 hk2 hk3
            by_cases hke : k = st.j
            · rw [ih3 k (show k < st.j + 1 by omega), hke]
              simp
            · have hidxeq : k - st.j = (k - (st.j + 1)) + 1 := by omega
              rw [ih4 k (show st.j + 1 ≤ k by omega) hk2
                (show k - (st.j + 1) < (activeUnicastAddrs es).length by
                  simp only [List.length_cons] at hk3
                  omega),
                hidxeq, List.getD_cons_succ]
          · intro f hf hfr hfm
            rcases List.mem_cons.mp hf with h | h
            · subst h
              exact absurd hfm hmul
            · exact ih5 f h hfr hfm
          · intro k hk1 hk2
            by_cases hk0 : k = 0
            · subst hk0
              omega
            · obtain ⟨k', rfl⟩ : ∃ k', k = k' + 1 := ⟨k - 1, by omega⟩
              have hres := ih6 k' (show 3 ≤ st.j + 1 + k' by omega)
                (show k' < (activeUnicastAddrs es).length by
                  simp only [List.length_cons] at hk2
                  omega)
              rw [List.getD_cons_succ]
              exact hres
        · have hstep : samv71EthFilterStep st e =
              { gmacHashTableSet st (samv71EthHashIndex e.addr) with
                j := st.j + 1 } := by
            simp [samv71EthFilterStep, gmacHashTableSet, href, hmul, hlt]
            split <;> rfl
          have hau : activeUnicastAddrs (e :: es) =
              e.addr :: activeUnicastAddrs es := by
            simp [activeUnicastAddrs, List.filter_cons, href, hmul]
          obtain ⟨ih1, ih2, ih3, ih4, ih5, ih6⟩ :=
            ih { gmacHashTableSet st (samv71EthHashIndex e.addr) with
              j := st.j + 1 }
          rw [List.foldl_cons, hstep, hau]
          refine ⟨?_, ?_, ?_, ?_, ?_, ?_⟩
          · rw [ih1]
            simp only [List.length_cons]
            have hj := gmacHashTableSet_j st (samv71EthHashIndex e.addr)
            omega
          · intro b hb
            exact ih2 b (gmacFilterBit_set_mono st _ b hb)
          · intro k hk
            rw [ih3 k (show k < st.j + 1 by omega)]
            simp [gmacHashTableSet_slots]
          · intro k hk1 hk2 hk3
            omega
          · intro f hf hfr hfm
            rcases List.mem_cons.mp hf with h | h
            · subst h
              exact absurd hfm hmul
            · exact ih5 f h hfr hfm
          · intro k hk1 hk2
            by_cases hk0 : k = 0
            · subst hk0
              rw [List.getD_cons_zero]
              exact ih2 _ (gmacFilterBit_set_self st _)
            · obtain ⟨k', rfl⟩ : ∃ k', k = k' + 1 := ⟨k - 1, by omega⟩
              have hres := ih6 k' (show 3 ≤ st.j + 1 + k' by omega)
                (show k' < (activeUnicastAddrs es).length by
                  simp only [List.length_cons] at hk2
                  omega)
              rw [List.getD_cons_succ]
              exact hres
    · have hstep : samv71EthFilterStep st e = st := by
        simp [samv71EthFilterStep, href]
      have hau : activeUnicastAddrs (e :: es) = activeUnicastAddrs es := by
        simp [activeUnicastAddrs, List.filter_cons, href]
      obtain ⟨ih1, ih2, ih3, ih4, ih5, ih6⟩ := ih st
      rw [List.foldl_cons, hstep, hau]
      refine ⟨ih1, ih2, ih3, ih4, ?_, ih6⟩
      intro f hf hfr hfm
      rcases List.mem_cons.mp hf with h | h
      · subst h
        exact absurd hfr href
      · exact ih5 f h hfr hfm

theorem enetFilterStep_bit_self (st : EnetFilterState) (e : MacFilterEntry)
    (h : 0 < e.refCount) :
    enetFilterBit (mimxrt1160Eth2FilterStep st e) (macIsMulticastAddr e.addr)
      (mimxrt1160Eth2HashIndex e.addr) = true := by
  unfold mimxrt1160Eth2FilterStep enetFilterBit hashTableBit
  by_cases hm : macIsMulticastAddr e.addr <;>
    by_cases hk : mimxrt1160Eth2HashIndex e.addr / 32 = 0 <;>
      simp [h, hm, hk, Nat.testBit_or, Nat.shiftLeft_eq,
        Nat.testBit_two_pow_self]

theorem enetFilterStep_mono (st : EnetFilterState) (e : MacFilterEntry)
    (m : Bool) (b : Nat) (h : enetFilterBit st m b = true) :
    enetFilterBit (mimxrt1160Eth2FilterStep st e) m b = true := by
  unfold enetFilterBit hashTableBit at h
  unfold mimxrt1160Eth2FilterStep enetFilterBit hashTableBit
  cases m <;> by_cases href : 0 < e.refCount <;>
    by_cases hm : macIsMulticastAddr e.addr <;>
      by_cases hk : mimxrt1160Eth2HashIndex e.addr / 32 = 0 <;>
        by_cases hb : b / 32 = 0 <;>
          simp_all [Nat.testBit_or]

/-- Invariant of the entry loop of
`mimxrt1160Eth2UpdateMacAddrFilter`: hash bits are only ever added, and
every active entry gets its bit set in the table matching its
multicast/unicast class. -/
theorem mimxrt1160Eth2FilterFold (es : List MacFilterEntry) :
    ∀ st : EnetFilterState,
      (∀ m b, enetFilterBit st m b = true →
        enetFilterBit (es.foldl mimxrt1160Eth2FilterStep st) m b = true) ∧
      (∀ e, e ∈ es → 0 < e.refCount →
        enetFilterBit (es.foldl mimxrt1160Eth2FilterStep st)
          (macIsMulticastAddr e.addr) (mimxrt1160Eth2HashIndex e.addr) =
          true) := by
  induction es with
  | nil =>
    intro st
    exact ⟨fun m b h => h, by simp⟩
  | cons e es ih =>
    intro st
    obtain ⟨ih1, ih2⟩ := ih (mimxrt1160Eth2FilterStep st e)
    rw [List.foldl_cons]
    refine ⟨?_, ?_⟩
    · intro m b hb
      exact ih1 m b (enetFilterStep_mono st e m b hb)
    · intro f hf hfr
      rcases List.mem_cons.mp hf with h | h
      · subst h
        exact ih1 _ _ (enetFilterStep_bit_self st f hfr)
      · exact ih2 f h hfr

/-- C5: the filter update routes every active multicast address to the
hash-table bitmap; on the GMAC, which has 3 exact-match slots beyond
the station address, the first three active unicast addresses land in
the exact-match slots in order and every further active unicast address
falls back to the hash-table bitmap; the unicast counter equals the
number of active unicast entries.  On the ENET, whose receive filter is
purely hash-based, every active entry is routed to the hash bitmap of
its class (multicast or unicast). -/
theorem updateMacAddrFilter_routing (entries : List MacFilterEntry) :
    ((samv71EthUpdateMacAddrFilter entries).j =
      (activeUnicastAddrs entries).length ∧
     (∀ e, e ∈ entries → 0 < e.refCount → macIsMulticastAddr e.addr = true →
       gmacFilterBit (samv71EthUpdateMacAddrFilter entries)
         (samv71EthHashIndex e.addr) = true) ∧
     (∀ k, k < 3 → k < (activeUnicastAddrs entries).length →
       (samv71EthUpdateMacAddrFilter entries).unicastMacAddr k =
         (activeUnicastAddrs entries).getD k []) ∧
     (∀ k, 3 ≤ k → k < (activeUnicastAddrs entries).length →
       gmacFilterBit (samv71EthUpdateMacAddrFilter entries)
         (samv71EthHashIndex ((activeUnicastAddrs entries).getD k [])) =
         true)) ∧
    (∀ e, e ∈ entries → 0 < e.refCount →
      enetFilterBit (mimxrt1160Eth2UpdateMacAddrFilter entries)
        (macIsMulticastAddr e.addr) (mimxrt1160Eth2HashIndex e.addr) =
        true) := by
  obtain ⟨h1, h2, h3, h4, h5, h6⟩ := samv71EthFilterFold entries
    { j := 0
      unicastMacAddr := fun _ => List.replicate 6 0
      hashTable0 := 0
      hashTable1 := 0 }
  refine ⟨⟨?_, ?_, ?_, ?_⟩, ?_⟩
  · simpa using h1
  · exact h5
  · intro k hk3 hklen
    exact h4 k (Nat.zero_le k) hk3 hklen
  · intro k hk3 hklen
    exact h6 k (by simpa using hk3) hklen
  · exact (mimxrt1160Eth2FilterFold entries ⟨0, 0, 0, 0⟩).2

/-- Witness for C5 on a table with one active multicast entry, four
active unicast entries and one inactive entry. -/
theorem updateMacAddrFilter_routing_witness :
    (samv71EthUpdateMacAddrFilter sampleFilterEntries).j =
      (activeUnicastAddrs sampleFilterEntries).length ∧
    gmacFilterBit (samv71EthUpdateMacAddrFilter sampleFilterEntries)
      (samv71EthHashIndex [0x01, 0x00, 0x5E, 0x00, 0x00, 0x01]) = true ∧
    (samv71EthUpdateMacAddrFilter sampleFilterEntries).unicastMacAddr 0 =
      (activeUnicastAddrs sampleFilterEntries).getD 0 [] ∧
    gmacFilterBit (samv71EthUpdateMacAddrFilter sampleFilterEntries)
      (samv71EthHashIndex
        ((activeUnicastAddrs sampleFilterEntries).getD 3 [])) = true ∧
    enetFilterBit (mimxrt1160Eth2UpdateMacAddrFilter sampleFilterEntries)
      (macIsMulticastAddr [0x01, 0x00, 0x5E, 0x00, 0x00, 0x01])
      (mimxrt1160Eth2HashIndex [0x01, 0x00, 0x5E, 0x00, 0x00, 0x01]) =
      true :=
  ⟨(updateMacAddrFilter_routing sampleFilterEntries).1.1,
   (updateMacAddrFilter_routing sampleFilterEntries).1.2.1
     { addr := [0x01, 0x00, 0x5E, 0x00, 0x00, 0x01], refCount := 1 }
     (by decide) (by decide) (by decide),
   (updateMacAddrFilter_routing sampleFilterEntries).1.2.2.1 0 (by decide)
     (by decide),
   (updateMacAddrFilter_routing sampleFilterEntries).1.2.2.2 3 (by decide)
     (by decide),
   (updateMacAddrFilter_routing sampleFilterEntries).2
     { addr := [0x01, 0x00, 0x5E, 0x00, 0x00, 0x01], refCount := 1 }
     (by decide) (by decide)⟩

end CycloneTCP
